import Mathlib

/-!
Shallow embedding of the SWIFT reconciliation engine
(`src/swiftv2.py`, class `SwiftMatcher`, and the `src/swift.py` variant).

Modelling conventions:
* Monetary amounts are rationals (Python floats; the inputs exercised by the
  claims are exact, so `ℚ` reproduces the comparisons `abs(a-b) < 0.01`).
* Timestamps are integers at day granularity; `(now - first_seen).days`
  becomes integer subtraction, matching the spec wording "measured in whole days".
* The filesystem is an association list `path → content`.  The SHA-256
  digest of a file is modelled by an injective tag of its content
  (`"#" ++ content`): identical bytes give identical fingerprints, distinct
  bytes give distinct fingerprints, and a missing file hashes to `""`
  exactly as `_get_file_hash` returns `""` on a read error.
* PDF text extraction returns the stored content (`""` when missing).
* Python `dict`s are association lists with dict semantics: assignment
  replaces in place or appends a fresh key; `set`s are lists with
  membership-guarded insertion.
* The regex field extraction of the parsers is modelled by passing the
  `re.search` results as `Option` arguments (the pattern matching itself is
  an external collaborator per the spec); the construction of the record
  from those results is translated faithfully.
-/

/-- Association-list lookup with decidable key equality (the model of
Python dict indexing and of reading a file from the filesystem map). -/
def alookup {kt at' : Type} [DecidableEq kt] : List (kt × at') → kt → Option at'
  | [], _ => none
  | kv :: rest, k => if kv.1 = k then some kv.2 else alookup rest k

/-- One parsed SWIFT document (dataclass `SwiftMessage`). -/
structure SwiftMessage where
  file_path : String
  date : String
  reference : String
  amount : ℚ
  debit_account : String
  credit_account : String
  transaction_ref : String
  raw_text : String
deriving DecidableEq, Repr

/-- The output fields of the parse collaborator, everything except the locator and
the raw text (both of which the parsers set structurally from their
arguments). -/
structure MsgCore where
  date : String
  reference : String
  amount : ℚ
  debit_account : String
  credit_account : String
  transaction_ref : String
deriving DecidableEq, Repr

/-- Assemble a `SwiftMessage` the way both parsers do: `file_path` is the
path handed in, `raw_text` is the extracted text. -/
def msgOfCore (core : MsgCore) (path text : String) : SwiftMessage :=
  { file_path := path
    date := core.date
    reference := core.reference
    amount := core.amount
    debit_account := core.debit_account
    credit_account := core.credit_account
    transaction_ref := core.transaction_ref
    raw_text := text }

/-- Groups of the MT910 `:32[AB]:` amount pattern:
group 1 (six-digit date), group 2 (currency), group 3 (the amount, after
comma-to-dot replacement and `float`). -/
structure Mt910Amount where
  dateStr : String
  currency : String
  value : ℚ
deriving DecidableEq, Repr

/-- Model of `SwiftParser.parse_mt910`: builds the record from the `re.search`
results; every absent group defaults (`""` / `0.0`), and `credit_account`
is always the empty string. -/
def parse_mt910 (text file_path : String) (reference : Option String)
    (amount : Option Mt910Amount) (account : Option String)
    (trn : Option String) : SwiftMessage :=
  { file_path := file_path
    date := (amount.map (·.dateStr)).getD ""
    reference := reference.getD ""
    amount := (amount.map (·.value)).getD 0
    debit_account := account.getD ""
    credit_account := ""
    transaction_ref := trn.getD ""
    raw_text := text }

/-- Model of `SwiftParser.parse_pacs008`: builds the record from the `re.search`
results; `date` keeps the first 8 characters of `<CreDtTm>`. -/
def parse_pacs008 (text file_path : String) (reference : Option String)
    (amount : Option ℚ) (debtor : Option String) (creditor : Option String)
    (trn : Option String) (date : Option String) : SwiftMessage :=
  { file_path := file_path
    date := (date.map (String.take · 8)).getD ""
    reference := reference.getD ""
    amount := amount.getD 0
    debit_account := debtor.getD ""
    credit_account := creditor.getD ""
    transaction_ref := trn.getD ""
    raw_text := text }

/-- The Python built-in `abs` on the (rational-valued) amounts, written as
an executable conditional. -/
def ratAbs (q : ℚ) : ℚ := if q < 0 then -q else q

theorem ratAbs_eq_abs (q : ℚ) : ratAbs q = |q| := by
  unfold ratAbs
  rcases lt_or_ge q 0 with hq | hq
  · rw [if_pos hq, abs_of_neg hq]
  · rw [if_neg (not_lt.mpr hq), abs_of_nonneg hq]

/-- Rational subtraction written through `mkRat` so that it evaluates
inside the kernel (the library subtraction on `ℚ` is irreducible); it
agrees with `a - b`. -/
def ratSub (a b : ℚ) : ℚ :=
  mkRat (a.num * (b.den : Int) - b.num * (a.den : Int)) (a.den * b.den)

theorem ratSub_eq_sub (a b : ℚ) : ratSub a b = a - b := by
  unfold ratSub
  rw [Rat.mkRat_eq_div]
  push_cast
  have ha : ((a.den : ℚ)) ≠ 0 := by positivity
  have hb : ((b.den : ℚ)) ≠ 0 := by positivity
  conv_rhs => rw [← Rat.num_div_den a, ← Rat.num_div_den b]
  field_simp
  ring

theorem mkRat_one_hundred : (mkRat 1 100 : ℚ) = 1 / 100 := by
  norm_num [Rat.mkRat_eq_div]

/-- The amount comparison of the cascade, `abs(a - b) < 0.01`, in its
kernel-evaluable form and its mathematical reading. -/
theorem amount_cond_iff (a b : ℚ) :
    (ratAbs (ratSub a b) < mkRat 1 100) ↔ |a - b| < 1 / 100 := by
  rw [ratAbs_eq_abs, ratSub_eq_sub, mkRat_one_hundred]

theorem amount_match_self (a : ℚ) : ratAbs (ratSub a a) < mkRat 1 100 := by
  rw [amount_cond_iff, sub_self, abs_zero]
  norm_num

/-- Model of `SwiftMatcher._is_match`: the three-rule cascade, translated line by
line (rule 1 strong key, rule 2 triangulated key, rule 3 weak key). -/
def is_match (mt910 pacs008 : SwiftMessage) : Bool :=
  if mt910.transaction_ref ≠ "" ∧ pacs008.transaction_ref ≠ "" ∧
      mt910.transaction_ref = pacs008.transaction_ref then
    true
  else
    let amount_match := ratAbs (ratSub mt910.amount pacs008.amount) < mkRat 1 100
    let date_match := mt910.date = pacs008.date
    let account_match := mt910.debit_account = pacs008.debit_account ∨
      mt910.credit_account = pacs008.credit_account
    if amount_match ∧ date_match ∧ account_match then
      true
    else if mt910.reference = pacs008.reference ∧ amount_match then
      true
    else
      false

/-- Which rule of the cascade fires first for a pair (specification-side
reading of `_is_match`: `some 1`/`some 2`/`some 3` name the rule that
declares the match, `none` means no rule fires). -/
def matchRule (mt910 pacs008 : SwiftMessage) : Option Nat :=
  if mt910.transaction_ref ≠ "" ∧ pacs008.transaction_ref ≠ "" ∧
      mt910.transaction_ref = pacs008.transaction_ref then
    some 1
  else if ratAbs (ratSub mt910.amount pacs008.amount) < mkRat 1 100 ∧
      mt910.date = pacs008.date ∧
      (mt910.debit_account = pacs008.debit_account ∨
        mt910.credit_account = pacs008.credit_account) then
    some 2
  else if mt910.reference = pacs008.reference ∧
      ratAbs (ratSub mt910.amount pacs008.amount) < mkRat 1 100 then
    some 3
  else
    none

theorem is_match_eq_matchRule (m p : SwiftMessage) :
    is_match m p = (matchRule m p).isSome := by
  unfold is_match matchRule
  dsimp only
  split_ifs <;> rfl

/-- A pending-pool entry (path and first-seen timestamp), keyed by the
fingerprint of the file in the per-side mapping. -/
structure PendingData where
  path : String
  first_seen : Int
deriving DecidableEq, Repr

/-- A recorded match (the value stored under a `matched_files` key:
both locators and the match timestamp). -/
structure MatchRecord where
  mt910 : String
  pacs008 : String
  match_date : Int
deriving DecidableEq, Repr

/-- The persistent reconciliation state (`self.history`).  `matched_files`
is keyed by the pair of fingerprints (the Python key is the string
`mt910_hash ++ "_" ++ pacs008_hash`; with fixed-length digests the pair is
exactly recoverable, so the model keys by the pair itself). -/
structure History where
  matched_files : List ((String × String) × MatchRecord)
  processed_mt910 : List String
  processed_pacs008 : List String
  pending_mt910 : List (String × PendingData)
  pending_pacs008 : List (String × PendingData)
  waiting_days : Int
  last_run : Option Int
deriving DecidableEq, Repr

/-- The external collaborators the engine runs against: the filesystem
(path to content) and the two field-extraction parsers (text to fields;
pattern matching is out of scope per the spec, but locator and raw text
are attached structurally exactly as the Python parsers do). -/
structure Env where
  fs : List (String × String)
  parseMtCore : String → MsgCore
  parsePacsCore : String → MsgCore

/-- Model of `SwiftParser.extract_text_from_pdf`: the stored content, `""` on any
read failure (missing file). -/
def extract_text (env : Env) (path : String) : String :=
  (alookup env.fs path).getD ""

/-- Whether a path exists on disk (`Path(...).exists()`). -/
def pathExists (env : Env) (path : String) : Bool :=
  (alookup env.fs path).isSome

/-- Model of `SwiftMatcher._get_file_hash`: the SHA-256 digest of the raw bytes of the file,
`""` when the file cannot be read.  The digest is modelled by the injective
content tag `"#" ++ content`. -/
def get_file_hash (env : Env) (path : String) : String :=
  match alookup env.fs path with
  | some content => "#" ++ content
  | none => ""

/-- Python `dict` assignment `d[k] = v`: replace in place if the key is
present, append otherwise. -/
def dictInsert {α : Type} (l : List ((String × String) × α))
    (k : String × String) (v : α) : List ((String × String) × α) :=
  if (alookup l k).isSome then
    l.map (fun kv => if kv.1 = k then (k, v) else kv)
  else
    l ++ [(k, v)]

/-- Python `set.add`: insert the element unless already present. -/
def setAdd (l : List String) (x : String) : List String :=
  if x ∈ l then l else l ++ [x]

/-- Model of `SwiftMatcher._mark_file_processed`. -/
def mark_file_processed (env : Env) (h : History) (file_path : String)
    (message_type : String) : History :=
  let file_hash := get_file_hash env file_path
  if file_hash = "" then h
  else if message_type = "MT910" then
    { h with processed_mt910 := setAdd h.processed_mt910 file_hash }
  else
    { h with processed_pacs008 := setAdd h.processed_pacs008 file_hash }

/-- Model of `SwiftMatcher._is_already_matched`: whether the pair of fingerprints is
already a `matched_files` key (`False` when either file is unreadable). -/
def is_already_matched (env : Env) (h : History)
    (mt910_path pacs008_path : String) : Bool :=
  let mt910_hash := get_file_hash env mt910_path
  let pacs008_hash := get_file_hash env pacs008_path
  if mt910_hash = "" ∨ pacs008_hash = "" then false
  else (alookup h.matched_files (mt910_hash, pacs008_hash)).isSome

/-- Model of `SwiftMatcher._record_match`: store the pair under its fingerprint key,
mark both sides processed, and drop both fingerprints from the pending
pools. -/
def record_match (env : Env) (now : Int) (h : History)
    (mt910_path pacs008_path : String) : History :=
  let mt910_hash := get_file_hash env mt910_path
  let pacs008_hash := get_file_hash env pacs008_path
  if mt910_hash = "" ∨ pacs008_hash = "" then h
  else
    let entry : MatchRecord :=
      { mt910 := mt910_path, pacs008 := pacs008_path, match_date := now }
    let mf := dictInsert h.matched_files (mt910_hash, pacs008_hash) entry
    let h1 := { h with matched_files := mf }
    let h2 := mark_file_processed env h1 mt910_path "MT910"
    let h3 := mark_file_processed env h2 pacs008_path "PACS008"
    { h3 with
      pending_mt910 := h3.pending_mt910.filter (fun kv => kv.1 ≠ mt910_hash)
      pending_pacs008 :=
        h3.pending_pacs008.filter (fun kv => kv.1 ≠ pacs008_hash) }

/-- Model of `SwiftMatcher._add_to_pending`: remember an unmatched file with the
current timestamp, never overwriting an existing first-seen entry. -/
def add_to_pending (env : Env) (now : Int) (h : History)
    (file_path : String) (message_type : String) : History :=
  let file_hash := get_file_hash env file_path
  if file_hash = "" then h
  else if message_type = "MT910" then
    if (alookup h.pending_mt910 file_hash).isSome then h
    else { h with pending_mt910 :=
      h.pending_mt910 ++ [(file_hash, ⟨file_path, now⟩)] }
  else
    if (alookup h.pending_pacs008 file_hash).isSome then h
    else { h with pending_pacs008 :=
      h.pending_pacs008 ++ [(file_hash, ⟨file_path, now⟩)] }

/-- One entry of the result lists of the expiry sweep. -/
structure ExpiredEntry where
  hash : String
  path : String
  days_waiting : Int
deriving DecidableEq, Repr

/-- Model of `SwiftMatcher._get_expired_pending_files`: the pending entries of each
side whose age in whole days has reached `waiting_days`. -/
def get_expired_pending_files (h : History) (now : Int) :
    List ExpiredEntry × List ExpiredEntry :=
  let expired_mt910 := h.pending_mt910.filterMap (fun kv =>
    let days_waiting := now - kv.2.first_seen
    if days_waiting ≥ h.waiting_days then
      some ⟨kv.1, kv.2.path, days_waiting⟩
    else none)
  let expired_pacs008 := h.pending_pacs008.filterMap (fun kv =>
    let days_waiting := now - kv.2.first_seen
    if days_waiting ≥ h.waiting_days then
      some ⟨kv.1, kv.2.path, days_waiting⟩
    else none)
  (expired_mt910, expired_pacs008)

/-- Model of `SwiftMatcher._mark_as_permanently_unmatched`: move a fingerprint from
the pending pool into the resolved set of its side. -/
def mark_as_permanently_unmatched (h : History) (file_hash : String)
    (message_type : String) : History :=
  if message_type = "MT910" then
    { h with
      processed_mt910 := setAdd h.processed_mt910 file_hash
      pending_mt910 := h.pending_mt910.filter (fun kv => kv.1 ≠ file_hash) }
  else
    { h with
      processed_pacs008 := setAdd h.processed_pacs008 file_hash
      pending_pacs008 :=
        h.pending_pacs008.filter (fun kv => kv.1 ≠ file_hash) }

/-- The re-parsed messages of the pending pool of one side, as `match_messages`
rebuilds them: for every pending entry whose file still exists and whose
extracted text is non-empty, parse the text at the stored path (a
disappeared or unreadable pending document is silently excluded). -/
def pendingPool (env : Env) (pending : List (String × PendingData))
    (parse : Env → String → String → SwiftMessage) : List SwiftMessage :=
  pending.filterMap (fun kv =>
    if pathExists env kv.2.path then
      let text := extract_text env kv.2.path
      if text ≠ "" then some (parse env text kv.2.path) else none
    else none)

/-- Re-parse an MT910 document at a path (extraction plus the parse
collaborator, locator and raw text attached as `parse_mt910` does). -/
def parseMtAt (env : Env) (text path : String) : SwiftMessage :=
  msgOfCore (env.parseMtCore text) path text

/-- Re-parse a PACS.008 document at a path. -/
def parsePacsAt (env : Env) (text path : String) : SwiftMessage :=
  msgOfCore (env.parsePacsCore text) path text

/-- The inner loop of `match_messages` for one MT910 record: the first
PACS.008 record (in scan order, with its index) whose pair is not already
matched and which satisfies the rule cascade; `continue` on an
already-matched pair, `break` on the first match. -/
def findCounterpart (env : Env) (h : History) (mt910 : SwiftMessage)
    (all_pacs008 : List SwiftMessage) : Option (Nat × SwiftMessage) :=
  all_pacs008.enum.find? (fun jp =>
    !(is_already_matched env h mt910.file_path jp.2.file_path) &&
      is_match mt910 jp.2)

/-- The row a successful match appends to the `matches` list. -/
structure MatchData where
  mt910_file : String
  pacs008_file : String
  reference : String
  transaction_ref : String
  amount : ℚ
  date : String
  debit_account : String
  credit_account : String
deriving DecidableEq, Repr

/-- The `match_data` row as built in the loop body (`mt910.debit_account or
pacs008.debit_account` is the Python falsy-or on strings). -/
def mkMatchData (mt910 pacs008 : SwiftMessage) : MatchData :=
  { mt910_file := mt910.file_path
    pacs008_file := pacs008.file_path
    reference := mt910.reference
    transaction_ref := mt910.transaction_ref
    amount := mt910.amount
    date := mt910.date
    debit_account := if mt910.debit_account ≠ "" then mt910.debit_account
      else pacs008.debit_account
    credit_account := pacs008.credit_account }

/-- The outer loop of `match_messages` over the MT910 pool: each record
takes its first admissible counterpart (recording the match immediately,
so later iterations see the updated state) or joins the unmatched list;
the returned data are the final state, the `matches` rows in discovery
order, the unmatched MT910 records in scan order, and the indices of the
matched PACS.008 records. -/
def matchOuter (env : Env) (now : Int) (all_pacs008 : List SwiftMessage) :
    List SwiftMessage → History →
    History × List MatchData × List SwiftMessage × List Nat
  | [], h => (h, [], [], [])
  | mt910 :: rest, h =>
    match findCounterpart env h mt910 all_pacs008 with
    | some (j, pacs008) =>
      let h1 := record_match env now h mt910.file_path pacs008.file_path
      let r := matchOuter env now all_pacs008 rest h1
      (r.1, mkMatchData mt910 pacs008 :: r.2.1, r.2.2.1, j :: r.2.2.2)
    | none =>
      let r := matchOuter env now all_pacs008 rest h
      (r.1, r.2.1, mt910 :: r.2.2.1, r.2.2.2)

/-- Model of `SwiftMatcher.match_messages`: build both pools (new records plus the
re-parsed pending pools), run the greedy pairing loop, then push every
unmatched record of the newly scanned batches into the pending pools.
Returns `(matches, mt910_non_matches, pacs008_non_matches)` and the
mutated state. -/
def match_messages (env : Env) (now : Int) (h : History)
    (mt910_msgs pacs008_msgs : List SwiftMessage) :
    (List MatchData × List SwiftMessage × List SwiftMessage) × History :=
  let all_mt910 := mt910_msgs ++ pendingPool env h.pending_mt910 parseMtAt
  let all_pacs008 :=
    pacs008_msgs ++ pendingPool env h.pending_pacs008 parsePacsAt
  let r := matchOuter env now all_pacs008 all_mt910 h
  let mt910_non_matches := r.2.2.1
  let pacs008_non_matches := (all_pacs008.enum.filter
    (fun jp => jp.1 ∉ r.2.2.2)).map Prod.snd
  let h1 := mt910_non_matches.foldl (fun acc msg =>
    if msg ∈ mt910_msgs then add_to_pending env now acc msg.file_path "MT910"
    else acc) r.1
  let h2 := pacs008_non_matches.foldl (fun acc msg =>
    if msg ∈ pacs008_msgs then
      add_to_pending env now acc msg.file_path "PACS008"
    else acc) h1
  ((r.2.1, mt910_non_matches, pacs008_non_matches), h2)

/-- The body of the MT910 loop of `copy_unmatched_files`: an expired
entry whose file still exists is copied (no state effect) and marked
permanently unmatched; one whose file is gone is skipped. -/
def expiryStepA (env : Env) (acc : History) (e : ExpiredEntry) : History :=
  if pathExists env e.path then
    mark_as_permanently_unmatched acc e.hash "MT910"
  else acc

/-- The body of the PACS.008 loop of `copy_unmatched_files`. -/
def expiryStepB (env : Env) (acc : History) (e : ExpiredEntry) : History :=
  if pathExists env e.path then
    mark_as_permanently_unmatched acc e.hash "PACS008"
  else acc

/-- Model of `SwiftMatcher.copy_unmatched_files`: collect the expired pending
entries; each one whose file still exists is copied to the unmatched
archive (no state effect) and marked permanently unmatched — an expired
entry whose file has disappeared is neither copied nor marked. -/
def copy_unmatched_files (env : Env) (h : History) (now : Int) : History :=
  let expired := get_expired_pending_files h now
  if expired.1 = [] ∧ expired.2 = [] then h
  else
    let h1 := expired.1.foldl (expiryStepA env) h
    expired.2.foldl (expiryStepB env) h1

/-- The statistics row `generate_statistics` returns (the unmatched counts
are plain integer differences and may be negative; the display rounding of
the rate to two decimals is not modelled). -/
structure Stats where
  total_mt910 : Nat
  total_pacs008 : Nat
  matched : Nat
  mt910_unmatched : Int
  pacs008_unmatched : Int
  matching_rate : ℚ
  daily_volumes : List (String × Nat)
deriving DecidableEq, Repr

/-- The per-date tally `daily_volumes` built by `generate_statistics`. -/
def dailyVolumes (matchRows : List MatchData) : List (String × Nat) :=
  matchRows.foldl (fun acc m =>
    match alookup acc m.date with
    | some n => acc.map (fun kv => if kv.1 = m.date then (kv.1, n + 1) else kv)
    | none => acc ++ [(m.date, 1)]) []

/-- Model of `SwiftMatcher.generate_statistics`: the unmatched count of each side is its
newly scanned total minus the number of matches. -/
def generate_statistics (matchRows : List MatchData)
    (mt910_total pacs008_total : Nat) : Stats :=
  let matched_count := matchRows.length
  { total_mt910 := mt910_total
    total_pacs008 := pacs008_total
    matched := matched_count
    mt910_unmatched := (mt910_total : Int) - matched_count
    pacs008_unmatched := (pacs008_total : Int) - matched_count
    matching_rate := if max mt910_total pacs008_total > 0 then
      mkRat (matched_count * 100) (max mt910_total pacs008_total)
      else 0
    daily_volumes := dailyVolumes matchRows }

/-- The serialized snapshot `_save_history` writes: the in-memory state
with `last_run` stamped to the time of saving (the in-memory `history`
itself is not updated). -/
structure SavedHistory where
  matched_files : List ((String × String) × MatchRecord)
  processed_mt910 : List String
  processed_pacs008 : List String
  pending_mt910 : List (String × PendingData)
  pending_pacs008 : List (String × PendingData)
  waiting_days : Int
  last_run : Int
deriving DecidableEq, Repr

/-- Model of `SwiftMatcher._save_history`: the snapshot content written to the
history file. -/
def save_history (h : History) (now : Int) : SavedHistory :=
  { matched_files := h.matched_files
    processed_mt910 := h.processed_mt910
    processed_pacs008 := h.processed_pacs008
    pending_mt910 := h.pending_mt910
    pending_pacs008 := h.pending_pacs008
    waiting_days := h.waiting_days
    last_run := now }

/-- The observable outcome of one `run_matching` cycle: the returned tuple
`(stats, matches, mt910_unmatched, pacs008_unmatched)`, the final
in-memory state, whether `_save_history` was reached, and the snapshot it
wrote (`none` when the write was skipped or failed — a failed write is
caught and logged inside `_save_history`). -/
structure RunOutput where
  stats : Option Stats
  matchRows : List MatchData
  unmatched_mt910 : List SwiftMessage
  unmatched_pacs008 : List SwiftMessage
  hist : History
  saveAttempted : Bool
  snapshot : Option SavedHistory
deriving DecidableEq, Repr

/-- Model of `SwiftMatcher.run_matching` (scanning is the injected lists
`mt910_messages` / `pacs008_messages`; archive copying has no state
effect and is omitted): short-circuit when there is nothing to do,
otherwise match, build statistics in verbose mode, sweep the expired
pending entries, and save the snapshot.  `writeOk` injects whether the
snapshot write succeeds; a failure is absorbed by the exception handler
inside `_save_history`, so the outputs of the cycle do not depend on it. -/
def run_matching (env : Env) (h : History) (now : Int)
    (mt910_messages pacs008_messages : List SwiftMessage)
    (verbose : Bool) (writeOk : Bool) : RunOutput :=
  if mt910_messages.length = 0 ∧ pacs008_messages.length = 0 ∧
      h.pending_mt910.length = 0 ∧ h.pending_pacs008.length = 0 then
    { stats := none, matchRows := [], unmatched_mt910 := [],
      unmatched_pacs008 := [], hist := h, saveAttempted := false,
      snapshot := none }
  else
    let r := match_messages env now h mt910_messages pacs008_messages
    let stats := if verbose then
      some (generate_statistics r.1.1 mt910_messages.length
        pacs008_messages.length)
      else none
    let h2 := copy_unmatched_files env r.2 now
    { stats := stats, matchRows := r.1.1, unmatched_mt910 := r.1.2.1,
      unmatched_pacs008 := r.1.2.2, hist := h2, saveAttempted := true,
      snapshot := if writeOk then some (save_history h2 now) else none }

/-- The `src/swift.py` variant of `match_messages`.  That file defines no
match predicate on the matcher class (the rule-cascade body sits inside
`copy_unmatched_files` without a `def` line), so the first candidate pair
that passes the already-matched guard reaches the attribute lookup of the
missing method and raises; only a run in which every pair is skipped by
the guard completes, with no matches.  Errors are modelled with `Except`.
-/
def match_messages_swiftpy (env : Env) (now : Int) (h : History)
    (mt910_msgs pacs008_msgs : List SwiftMessage) :
    Except String
      ((List MatchData × List SwiftMessage × List SwiftMessage) × History) :=
  let all_mt910 := mt910_msgs ++ pendingPool env h.pending_mt910 parseMtAt
  let all_pacs008 :=
    pacs008_msgs ++ pendingPool env h.pending_pacs008 parsePacsAt
  if all_mt910.any (fun mt910 => all_pacs008.any (fun pacs008 =>
      !(is_already_matched env h mt910.file_path pacs008.file_path))) then
    .error "AttributeError: SwiftMatcher object has no match predicate"
  else
    let h1 := all_mt910.foldl (fun acc msg =>
      if msg ∈ mt910_msgs then
        add_to_pending env now acc msg.file_path "MT910"
      else acc) h
    let h2 := all_pacs008.foldl (fun acc msg =>
      if msg ∈ pacs008_msgs then
        add_to_pending env now acc msg.file_path "PACS008"
      else acc) h1
    .ok (([], all_mt910, all_pacs008), h2)

/-- The `src/swift.py` variant of `copy_unmatched_files`.  After the two copy
loops (which do run, marking existing expired files), control falls into
the orphaned rule-cascade statements glued to the end of the method body,
whose first expression reads the undefined name `mt910` and raises, so the
call never returns (the in-memory markings die with the aborted cycle);
the early return when nothing expired avoids that code. -/
def copy_unmatched_files_swiftpy (_env : Env) (h : History) (now : Int) :
    Except String History :=
  let expired := get_expired_pending_files h now
  if expired.1 = [] ∧ expired.2 = [] then .ok h
  else
    .error "NameError: name mt910 is not defined"

/-! ## Basic lemmas about the state-store operations -/

theorem alookup_eq_none_iff {kt at' : Type} [DecidableEq kt]
    (l : List (kt × at')) (k : kt) :
    alookup l k = none ↔ k ∉ l.map Prod.fst := by
  induction l with
  | nil => simp [alookup]
  | cons kv rest ih =>
    by_cases hk : kv.1 = k <;> simp [alookup, hk, ih, Ne.symm]

theorem alookup_isSome_iff {kt at' : Type} [DecidableEq kt]
    (l : List (kt × at')) (k : kt) :
    (alookup l k).isSome ↔ k ∈ l.map Prod.fst := by
  rcases ho : alookup l k with _ | v
  · simp [(alookup_eq_none_iff l k).mp ho]
  · simp only [Option.isSome_some, true_iff]
    induction l with
    | nil => simp [alookup] at ho
    | cons kv rest ih =>
      by_cases hk : kv.1 = k
      · simp [hk]
      · simp only [alookup, hk, if_false] at ho
        simpa using Or.inr (ih ho)

theorem mark_file_processed_matched_files (env : Env) (h : History)
    (p t : String) :
    (mark_file_processed env h p t).matched_files = h.matched_files := by
  unfold mark_file_processed
  dsimp only
  split_ifs <;> rfl

theorem mark_file_processed_pending_mt910 (env : Env) (h : History)
    (p t : String) :
    (mark_file_processed env h p t).pending_mt910 = h.pending_mt910 := by
  unfold mark_file_processed
  dsimp only
  split_ifs <;> rfl

theorem mark_file_processed_pending_pacs008 (env : Env) (h : History)
    (p t : String) :
    (mark_file_processed env h p t).pending_pacs008 = h.pending_pacs008 := by
  unfold mark_file_processed
  dsimp only
  split_ifs <;> rfl

theorem record_match_matched_files (env : Env) (now : Int) (h : History)
    (pa pb : String) :
    (record_match env now h pa pb).matched_files =
      if get_file_hash env pa = "" ∨ get_file_hash env pb = "" then
        h.matched_files
      else
        dictInsert h.matched_files (get_file_hash env pa, get_file_hash env pb)
          { mt910 := pa, pacs008 := pb,
            match_date := now } := by
  unfold record_match
  dsimp only
  split_ifs with hg
  · rfl
  · simp [mark_file_processed_matched_files]

theorem record_match_pending_mt910 (env : Env) (now : Int) (h : History)
    (pa pb : String) :
    (record_match env now h pa pb).pending_mt910 =
      if get_file_hash env pa = "" ∨ get_file_hash env pb = "" then
        h.pending_mt910
      else
        h.pending_mt910.filter (fun kv => kv.1 ≠ get_file_hash env pa) := by
  unfold record_match
  dsimp only
  split_ifs with hg
  · rfl
  · simp [mark_file_processed_pending_mt910]

theorem record_match_pending_pacs008 (env : Env) (now : Int) (h : History)
    (pa pb : String) :
    (record_match env now h pa pb).pending_pacs008 =
      if get_file_hash env pa = "" ∨ get_file_hash env pb = "" then
        h.pending_pacs008
      else
        h.pending_pacs008.filter (fun kv => kv.1 ≠ get_file_hash env pb) := by
  unfold record_match
  dsimp only
  split_ifs with hg
  · rfl
  · simp [mark_file_processed_pending_pacs008]

theorem add_to_pending_matched_files (env : Env) (now : Int) (h : History)
    (p t : String) :
    (add_to_pending env now h p t).matched_files = h.matched_files := by
  unfold add_to_pending
  dsimp only
  split_ifs <;> rfl

theorem add_to_pending_pending_mt910_sub (env : Env) (now : Int)
    (h : History) (p t : String) (kv : String × PendingData)
    (hmem : kv ∈ h.pending_mt910) :
    kv ∈ (add_to_pending env now h p t).pending_mt910 := by
  unfold add_to_pending
  dsimp only
  split_ifs <;> simp [hmem]

theorem add_to_pending_pending_pacs008_sub (env : Env) (now : Int)
    (h : History) (p t : String) (kv : String × PendingData)
    (hmem : kv ∈ h.pending_pacs008) :
    kv ∈ (add_to_pending env now h p t).pending_pacs008 := by
  unfold add_to_pending
  dsimp only
  split_ifs <;> simp [hmem]

theorem mark_as_permanently_unmatched_matched_files (h : History)
    (f t : String) :
    (mark_as_permanently_unmatched h f t).matched_files =
      h.matched_files := by
  unfold mark_as_permanently_unmatched
  split_ifs <;> rfl

theorem copy_unmatched_files_matched_files (env : Env) (h : History)
    (now : Int) :
    (copy_unmatched_files env h now).matched_files = h.matched_files := by
  unfold copy_unmatched_files
  dsimp only
  split_ifs with hg
  · rfl
  · have stepA : ∀ (l : List ExpiredEntry) (acc : History),
        (l.foldl (expiryStepA env) acc).matched_files =
          acc.matched_files := by
      intro l
      induction l with
      | nil => intro acc; rfl
      | cons e rest ih =>
        intro acc
        simp only [List.foldl_cons]
        rw [ih]
        unfold expiryStepA
        split_ifs <;> simp [mark_as_permanently_unmatched_matched_files]
    have stepB : ∀ (l : List ExpiredEntry) (acc : History),
        (l.foldl (expiryStepB env) acc).matched_files =
          acc.matched_files := by
      intro l
      induction l with
      | nil => intro acc; rfl
      | cons e rest ih =>
        intro acc
        simp only [List.foldl_cons]
        rw [ih]
        unfold expiryStepB
        split_ifs <;> simp [mark_as_permanently_unmatched_matched_files]
    rw [stepB, stepA]

/-! ## Claim theorems -/

/-- C3 — Rule-cascade precedence: `_is_match` declares a match exactly when
the cascade fires a rule, evaluated in order 1, 2, 3 with the first firing
rule deciding; a pair with equal non-empty transaction references matches
by rule 1 even when the amounts differ, and a pair with equal amount, date
and shared debit account but differing transaction and primary references
matches by rule 2. -/
theorem rule_cascade_precedence (m p : SwiftMessage) :
    (is_match m p = (matchRule m p).isSome)
    ∧ (m.transaction_ref ≠ "" → m.transaction_ref = p.transaction_ref →
        matchRule m p = some 1 ∧ is_match m p = true)
    ∧ (m.transaction_ref ≠ p.transaction_ref → m.reference ≠ p.reference →
        ratAbs (ratSub m.amount p.amount) < mkRat 1 100 → m.date = p.date →
        m.debit_account = p.debit_account →
        matchRule m p = some 2 ∧ is_match m p = true) := by
  refine ⟨is_match_eq_matchRule m p, ?_, ?_⟩
  · intro hne heq
    have h1 : m.transaction_ref ≠ "" ∧ p.transaction_ref ≠ "" ∧
        m.transaction_ref = p.transaction_ref := ⟨hne, heq ▸ hne, heq⟩
    have hr : matchRule m p = some 1 := by
      unfold matchRule
      rw [if_pos h1]
    exact ⟨hr, by rw [is_match_eq_matchRule, hr]; rfl⟩
  · intro htrn href ham hdate hdeb
    have hc1 : ¬(m.transaction_ref ≠ "" ∧ p.transaction_ref ≠ "" ∧
        m.transaction_ref = p.transaction_ref) := by tauto
    have hc2 : ratAbs (ratSub m.amount p.amount) < mkRat 1 100 ∧ m.date = p.date ∧
        (m.debit_account = p.debit_account ∨
          m.credit_account = p.credit_account) := ⟨ham, hdate, Or.inl hdeb⟩
    have hr : matchRule m p = some 2 := by
      unfold matchRule
      rw [if_neg hc1, if_pos hc2]
    exact ⟨hr, by rw [is_match_eq_matchRule, hr]; rfl⟩

/-- A concrete MT910 record used to exercise rule 1 (amounts differ). -/
def mtSampleRule1 : SwiftMessage :=
  { file_path := "a.pdf", date := "010125", reference := "REFA",
    amount := 100, debit_account := "DA", credit_account := "",
    transaction_ref := "TRX1", raw_text := "ta" }

/-- A concrete PACS.008 record used to exercise rule 1 (amounts differ). -/
def pacsSampleRule1 : SwiftMessage :=
  { file_path := "b.pdf", date := "020125", reference := "REFB",
    amount := 250, debit_account := "DB", credit_account := "CB",
    transaction_ref := "TRX1", raw_text := "tb" }

theorem rule_cascade_precedence_witness :
    matchRule mtSampleRule1 pacsSampleRule1 = some 1 ∧
      is_match mtSampleRule1 pacsSampleRule1 = true :=
  (rule_cascade_precedence mtSampleRule1 pacsSampleRule1).2.1
    (by decide) (by decide)

/-- C9 — Empty extracted fields satisfy the equality rules: an MT910
record whose field extraction found nothing (all `re.search` results
`None`) has empty date, empty reference, amount `0` and — as for every
MT910 parse — empty credit account; a fully defaulted PACS.008 record
likewise; and any two such records are declared a match by rule 2 of the
cascade (equal empty dates, amounts within `0.01`, equal empty credit
accounts). -/
theorem defaulted_records_match (tA pA tB pB : String) :
    ((parse_mt910 tA pA none none none none).date = "" ∧
      (parse_mt910 tA pA none none none none).amount = 0 ∧
      (parse_mt910 tA pA none none none none).credit_account = "")
    ∧ (∀ r am ac tr, (parse_mt910 tA pA r am ac tr).credit_account = "")
    ∧ ((parse_pacs008 tB pB none none none none none none).date = "" ∧
      (parse_pacs008 tB pB none none none none none none).amount = 0 ∧
      (parse_pacs008 tB pB none none none none none none).credit_account = "")
    ∧ matchRule (parse_mt910 tA pA none none none none)
        (parse_pacs008 tB pB none none none none none none) = some 2
    ∧ is_match (parse_mt910 tA pA none none none none)
        (parse_pacs008 tB pB none none none none none none) = true := by
  refine ⟨⟨rfl, rfl, rfl⟩, fun r am ac tr => rfl, ⟨rfl, rfl, rfl⟩, ?_, ?_⟩
  · unfold matchRule parse_mt910 parse_pacs008
    simp [amount_match_self]
  · rw [is_match_eq_matchRule]
    unfold matchRule parse_mt910 parse_pacs008
    simp [amount_match_self]

/-- C7 — Expiry monotonicity threshold: for each side, the sweep collects
exactly the pending entries whose age in whole days reaches the waiting
period (`now - first_seen >= waiting_days`); an entry first seen exactly
`waiting_days` days ago is collected, one first seen `waiting_days - 1`
days ago is not. -/
theorem expiry_threshold (h : History) (now : Int) (f : String)
    (d : PendingData) :
    (∀ e : ExpiredEntry, e ∈ (get_expired_pending_files h now).1 ↔
      ∃ d' : PendingData, (e.hash, d') ∈ h.pending_mt910 ∧
        e.path = d'.path ∧ e.days_waiting = now - d'.first_seen ∧
        now - d'.first_seen ≥ h.waiting_days)
    ∧ (∀ e : ExpiredEntry, e ∈ (get_expired_pending_files h now).2 ↔
      ∃ d' : PendingData, (e.hash, d') ∈ h.pending_pacs008 ∧
        e.path = d'.path ∧ e.days_waiting = now - d'.first_seen ∧
        now - d'.first_seen ≥ h.waiting_days)
    ∧ ((f, d) ∈ h.pending_mt910 → d.first_seen = now - h.waiting_days →
        (⟨f, d.path, h.waiting_days⟩ : ExpiredEntry) ∈
          (get_expired_pending_files h now).1)
    ∧ ((f, d) ∈ h.pending_pacs008 → d.first_seen = now - h.waiting_days →
        (⟨f, d.path, h.waiting_days⟩ : ExpiredEntry) ∈
          (get_expired_pending_files h now).2)
    ∧ (h.pending_mt910 = [(f, d)] →
        d.first_seen = now - (h.waiting_days - 1) →
        (get_expired_pending_files h now).1 = [])
    ∧ (h.pending_pacs008 = [(f, d)] →
        d.first_seen = now - (h.waiting_days - 1) →
        (get_expired_pending_files h now).2 = []) := by
  have hgen : ∀ (pending : List (String × PendingData))
      (e : ExpiredEntry),
      e ∈ pending.filterMap (fun kv =>
        if now - kv.2.first_seen ≥ h.waiting_days then
          some ⟨kv.1, kv.2.path, now - kv.2.first_seen⟩
        else none) ↔
      ∃ d' : PendingData, (e.hash, d') ∈ pending ∧
        e.path = d'.path ∧ e.days_waiting = now - d'.first_seen ∧
        now - d'.first_seen ≥ h.waiting_days := by
    intro pending e
    rw [List.mem_filterMap]
    constructor
    · rintro ⟨kv, hmem, hsome⟩
      by_cases hc : now - kv.2.first_seen ≥ h.waiting_days
      · rw [if_pos hc] at hsome
        have he : e = ⟨kv.1, kv.2.path, now - kv.2.first_seen⟩ :=
          (Option.some.inj hsome).symm
        subst he
        exact ⟨kv.2, hmem, rfl, rfl, hc⟩
      · rw [if_neg hc] at hsome
        exact absurd hsome (by simp)
    · rintro ⟨d', hmem, hpath, hdays, hc⟩
      refine ⟨(e.hash, d'), hmem, ?_⟩
      rw [if_pos hc]
      cases e
      simp only at hpath hdays
      rw [hpath, hdays]
  have hchar1 : ∀ e : ExpiredEntry,
      e ∈ (get_expired_pending_files h now).1 ↔
      ∃ d' : PendingData, (e.hash, d') ∈ h.pending_mt910 ∧
        e.path = d'.path ∧ e.days_waiting = now - d'.first_seen ∧
        now - d'.first_seen ≥ h.waiting_days := by
    intro e
    unfold get_expired_pending_files
    exact hgen h.pending_mt910 e
  have hchar2 : ∀ e : ExpiredEntry,
      e ∈ (get_expired_pending_files h now).2 ↔
      ∃ d' : PendingData, (e.hash, d') ∈ h.pending_pacs008 ∧
        e.path = d'.path ∧ e.days_waiting = now - d'.first_seen ∧
        now - d'.first_seen ≥ h.waiting_days := by
    intro e
    unfold get_expired_pending_files
    exact hgen h.pending_pacs008 e
  refine ⟨hchar1, hchar2, ?_, ?_, ?_, ?_⟩
  · intro hmem hfs
    rw [hchar1]
    exact ⟨d, hmem, rfl, by rw [hfs]; ring, by rw [hfs]; omega⟩
  · intro hmem hfs
    rw [hchar2]
    exact ⟨d, hmem, rfl, by rw [hfs]; ring, by rw [hfs]; omega⟩
  · intro hpend hfs
    unfold get_expired_pending_files
    rw [hpend]
    simp only [List.filterMap]
    rw [hfs]
    have : ¬(now - (now - (h.waiting_days - 1)) ≥ h.waiting_days) := by
      omega
    rw [if_neg this]
  · intro hpend hfs
    unfold get_expired_pending_files
    rw [hpend]
    simp only [List.filterMap]
    rw [hfs]
    have : ¬(now - (now - (h.waiting_days - 1)) ≥ h.waiting_days) := by
      omega
    rw [if_neg this]

/-- A history with a single MT910 pending entry aged exactly the waiting
period. -/
def histExpirySample : History :=
  { matched_files := [], processed_mt910 := [], processed_pacs008 := [],
    pending_mt910 := [("#c1", ⟨"p1", 5⟩)], pending_pacs008 := [],
    waiting_days := 5, last_run := some 9 }

theorem expiry_threshold_witness :
    (⟨"#c1", "p1", (5 : Int)⟩ : ExpiredEntry) ∈
      (get_expired_pending_files histExpirySample 10).1 :=
  (expiry_threshold histExpirySample 10 "#c1" ⟨"p1", 5⟩).2.2.1
    (by decide) (by decide)

/-- Parse-collaborator output with every field empty (a document from which
nothing could be extracted). -/
def blankCore : MsgCore :=
  { date := "", reference := "", amount := 0, debit_account := "",
    credit_account := "", transaction_ref := "" }

/-- The empty reconciliation state created on first run
(`_create_empty_history`, default waiting period 5 days). -/
def emptyHistory : History :=
  { matched_files := [], processed_mt910 := [], processed_pacs008 := [],
    pending_mt910 := [], pending_pacs008 := [], waiting_days := 5,
    last_run := none }

theorem is_match_blank (p t q u : String) :
    is_match (msgOfCore blankCore p t) (msgOfCore blankCore q u) = true := by
  simp [is_match, msgOfCore, blankCore, amount_match_self]

/-- Environment for the statistics scenario: one MT910 document on disk at
`pa` (held in the pending pool) and one PACS.008 document at `pb`; both
parse to blank records, which match by rule 2. -/
def envStats : Env :=
  { fs := [("pa", "ca"), ("pb", "cb")],
    parseMtCore := fun _ => blankCore,
    parsePacsCore := fun _ => blankCore }

/-- State before the statistics scenario: the MT910 document is a pending
record from an earlier cycle, nothing else. -/
def histStats : History :=
  { matched_files := [], processed_mt910 := [], processed_pacs008 := [],
    pending_mt910 := [("#ca", ⟨"pa", 0⟩)], pending_pacs008 := [],
    waiting_days := 5, last_run := some 0 }

/-- The newly scanned PACS.008 record of the statistics scenario. -/
def pacsNewStats : SwiftMessage := msgOfCore blankCore "pb" "cb"

/-- C10 — Reported unmatched counts can be negative: a verbose cycle that
scans zero new MT910 documents but matches one pending MT910 record
against one newly scanned PACS.008 record computes
`mt910_unmatched = 0 - 1 = -1`, because `generate_statistics` subtracts
the match count (which includes pending-pool matches) from the newly
scanned total. -/
theorem negative_unmatched_count :
    ((run_matching envStats histStats 1 [] [pacsNewStats] true
        true).stats.map (fun s => s.mt910_unmatched)) = some (-1) ∧
      (run_matching envStats histStats 1 [] [pacsNewStats] true
        true).matchRows.length = 1 := by
  constructor <;> decide

/-- C5 — Greedy first-match assignment: with one A record and two B
records that both satisfy the cascade (starting from a state with no
recorded matches and empty pending pools), the A record pairs with the
first B record in scan order; the second B record ends the cycle
unmatched and is put into the pending pool. -/
theorem greedy_first_match (env : Env) (now : Int) (h : History)
    (a b1 b2 : SwiftMessage)
    (hmf : h.matched_files = []) (hpA : h.pending_mt910 = [])
    (hpB : h.pending_pacs008 = [])
    (hm1 : is_match a b1 = true) (hm2 : is_match a b2 = true)
    (hb2 : get_file_hash env b2.file_path ≠ "") :
    ((match_messages env now h [a] [b1, b2]).1.1 = [mkMatchData a b1])
    ∧ ((match_messages env now h [a] [b1, b2]).1.2.2 = [b2])
    ∧ ((get_file_hash env b2.file_path,
        (⟨b2.file_path, now⟩ : PendingData)) ∈
        (match_messages env now h [a] [b1, b2]).2.pending_pacs008) := by
  have halready : ∀ p q, is_already_matched env h p q = false := by
    intro p q
    unfold is_already_matched
    dsimp only
    split_ifs
    · rfl
    · rw [hmf]
      rfl
  have hpool1 : pendingPool env h.pending_mt910 parseMtAt = [] := by
    rw [hpA]
    rfl
  have hpool2 : pendingPool env h.pending_pacs008 parsePacsAt = [] := by
    rw [hpB]
    rfl
  have hfind : findCounterpart env h a [b1, b2] = some (0, b1) := by
    unfold findCounterpart
    simp [List.enum, List.enumFrom, List.find?, halready, hm1]
  have houter : matchOuter env now [b1, b2] [a] h =
      (record_match env now h a.file_path b1.file_path,
        [mkMatchData a b1], [], [0]) := by
    simp [matchOuter, hfind]
  have hpend2 : (record_match env now h a.file_path
      b1.file_path).pending_pacs008 = [] := by
    rw [record_match_pending_pacs008]
    split_ifs <;> rw [hpB] <;> rfl
  have hmem2 : b2 ∈ ([b1, b2] : List SwiftMessage) := by simp
  refine ⟨?_, ?_, ?_⟩ <;>
    simp [match_messages, hpool1, hpool2, houter, List.enum, List.enumFrom,
      add_to_pending, hpend2, alookup, hb2, hmem2]

/-- Environment for the greedy-match scenario: three documents on disk. -/
def envGreedy : Env :=
  { fs := [("qa", "x"), ("qb1", "y"), ("qb2", "z")],
    parseMtCore := fun _ => blankCore,
    parsePacsCore := fun _ => blankCore }

/-- The single A-side record of the greedy-match scenario. -/
def aGreedy : SwiftMessage := msgOfCore blankCore "qa" "x"

/-- The first B-side record of the greedy-match scenario. -/
def b1Greedy : SwiftMessage := msgOfCore blankCore "qb1" "y"

/-- The second B-side record of the greedy-match scenario. -/
def b2Greedy : SwiftMessage := msgOfCore blankCore "qb2" "z"

theorem greedy_first_match_witness :
    ((match_messages envGreedy 0 emptyHistory [aGreedy]
        [b1Greedy, b2Greedy]).1.1 = [mkMatchData aGreedy b1Greedy])
    ∧ ((match_messages envGreedy 0 emptyHistory [aGreedy]
        [b1Greedy, b2Greedy]).1.2.2 = [b2Greedy])
    ∧ ((get_file_hash envGreedy b2Greedy.file_path,
        (⟨b2Greedy.file_path, 0⟩ : PendingData)) ∈
        (match_messages envGreedy 0 emptyHistory [aGreedy]
          [b1Greedy, b2Greedy]).2.pending_pacs008) :=
  greedy_first_match envGreedy 0 emptyHistory aGreedy b1Greedy b2Greedy
    rfl rfl rfl (is_match_blank "qa" "x" "qb1" "y")
    (is_match_blank "qa" "x" "qb2" "z")
    (by simp [get_file_hash, envGreedy, alookup, b2Greedy, msgOfCore])

/-- C8 — The `swift.py` variant cannot complete a matching cycle: its
class defines no `_is_match` attribute (the rule-cascade body sits inside
`copy_unmatched_files` without a `def` line), so `match_messages` raises
as soon as one candidate pair on each side passes the already-matched
guard; and `copy_unmatched_files` raises on the undefined name `mt910`
whenever any pending entry has expired. -/
theorem swiftpy_cannot_complete (env : Env) (now : Int) (h : History)
    (newA newB : List SwiftMessage) (a b : SwiftMessage)
    (ha : a ∈ newA ++ pendingPool env h.pending_mt910 parseMtAt)
    (hb : b ∈ newB ++ pendingPool env h.pending_pacs008 parsePacsAt)
    (hna : is_already_matched env h a.file_path b.file_path = false) :
    (∃ msg, match_messages_swiftpy env now h newA newB = .error msg)
    ∧ (∀ h' now', get_expired_pending_files h' now' ≠ ([], []) →
        ∃ msg, copy_unmatched_files_swiftpy env h' now' = .error msg) := by
  constructor
  · have hany : (newA ++ pendingPool env h.pending_mt910 parseMtAt).any
        (fun mt910 =>
          (newB ++ pendingPool env h.pending_pacs008 parsePacsAt).any
            (fun pacs008 =>
              !(is_already_matched env h mt910.file_path
                pacs008.file_path))) = true := by
      rw [List.any_eq_true]
      refine ⟨a, ha, ?_⟩
      rw [List.any_eq_true]
      refine ⟨b, hb, ?_⟩
      rw [hna]
      rfl
    unfold match_messages_swiftpy
    dsimp only
    rw [if_pos hany]
    exact ⟨_, rfl⟩
  · intro h' now' hne
    unfold copy_unmatched_files_swiftpy
    dsimp only
    have hsplit : ¬((get_expired_pending_files h' now').1 = [] ∧
        (get_expired_pending_files h' now').2 = []) := by
      rintro ⟨h1, h2⟩
      exact hne (Prod.ext h1 h2)
    rw [if_neg hsplit]
    exact ⟨_, rfl⟩

theorem swiftpy_cannot_complete_witness :
    (∃ msg, match_messages_swiftpy envGreedy 0 emptyHistory [aGreedy]
        [b1Greedy] = .error msg)
    ∧ (∃ msg, copy_unmatched_files_swiftpy envGreedy histExpirySample 10 =
        .error msg) := by
  have hmain := swiftpy_cannot_complete envGreedy 0 emptyHistory
    [aGreedy] [b1Greedy] aGreedy b1Greedy
    (by simp [emptyHistory, pendingPool])
    (by simp [emptyHistory, pendingPool])
    (by simp [is_already_matched, emptyHistory, alookup, get_file_hash,
      envGreedy, aGreedy, b1Greedy, msgOfCore])
  exact ⟨hmain.1, hmain.2 histExpirySample 10 (by decide)⟩

/-- Environment for the double-match scenario: two MT910 documents with
distinct bytes and one PACS.008 document; all parse blank and therefore
pairwise match by rule 2. -/
def envDouble : Env :=
  { fs := [("p1", "c1"), ("p2", "c2"), ("q", "d1")],
    parseMtCore := fun _ => blankCore,
    parsePacsCore := fun _ => blankCore }

/-- First MT910 record of the double-match scenario. -/
def a1Double : SwiftMessage := msgOfCore blankCore "p1" "c1"

/-- Second MT910 record of the double-match scenario. -/
def a2Double : SwiftMessage := msgOfCore blankCore "p2" "c2"

/-- The single PACS.008 record of the double-match scenario. -/
def bDouble : SwiftMessage := msgOfCore blankCore "q" "d1"

theorem no_double_match_counterexample :
    ¬ (∀ f : String,
        (((match_messages envDouble 0 emptyHistory [a1Double, a2Double]
            [bDouble]).2.matched_files.map Prod.fst).countP
          (fun k => k.1 == f || k.2 == f)) ≤ 1) := by
  intro hall
  have hkeys : ((match_messages envDouble 0 emptyHistory
      [a1Double, a2Double] [bDouble]).2.matched_files.map Prod.fst) =
      [("#c1", "#d1"), ("#c2", "#d1")] := by decide
  have h2 := hall "#d1"
  rw [hkeys] at h2
  exact absurd h2 (by decide)

theorem dictInsert_fresh {α : Type} (l : List ((String × String) × α))
    (k : String × String) (v : α) (hk : alookup l k = none) :
    dictInsert l k v = l ++ [(k, v)] := by
  unfold dictInsert
  rw [hk]
  simp

theorem is_already_matched_false_lookup (env : Env) (h : History)
    (pa pb : String)
    (hg : ¬(get_file_hash env pa = "" ∨ get_file_hash env pb = ""))
    (hguard : is_already_matched env h pa pb = false) :
    alookup h.matched_files
      (get_file_hash env pa, get_file_hash env pb) = none := by
  unfold is_already_matched at hguard
  dsimp only at hguard
  rw [if_neg hg] at hguard
  rcases ho : alookup h.matched_files
      (get_file_hash env pa, get_file_hash env pb) with _ | v
  · rfl
  · rw [ho] at hguard
    simp at hguard

theorem matchOuter_matched_nodup (env : Env) (now : Int)
    (allB : List SwiftMessage) :
    ∀ (L : List SwiftMessage) (h : History),
      (h.matched_files.map Prod.fst).Nodup →
      (((matchOuter env now allB L h).1.matched_files.map Prod.fst).Nodup
        ∧ ∀ kv ∈ h.matched_files,
            kv ∈ (matchOuter env now allB L h).1.matched_files) := by
  intro L
  induction L with
  | nil =>
    intro h hnd
    exact ⟨hnd, fun kv hkv => hkv⟩
  | cons a rest ih =>
    intro h hnd
    rcases hf : findCounterpart env h a allB with _ | jp
    · simp only [matchOuter, hf]
      exact ih h hnd
    · simp only [matchOuter, hf]
      have hf' : allB.enum.find? (fun jp =>
          !(is_already_matched env h a.file_path jp.2.file_path) &&
            is_match a jp.2) = some jp := by
        rw [← hf]
        rfl
      have hpred := List.find?_some hf'
      have hguard : is_already_matched env h a.file_path
          jp.2.file_path = false := by
        rcases Bool.and_eq_true_iff.mp hpred with ⟨hl, _⟩
        simpa using hl
      have hmono : (((record_match env now h a.file_path
            jp.2.file_path).matched_files.map Prod.fst).Nodup) ∧
          (∀ kv ∈ h.matched_files, kv ∈ (record_match env now h a.file_path
            jp.2.file_path).matched_files) := by
        rw [record_match_matched_files]
        split_ifs with hg
        · exact ⟨hnd, fun kv hkv => hkv⟩
        · rw [dictInsert_fresh _ _ _
            (is_already_matched_false_lookup env h _ _ hg hguard)]
          constructor
          · rw [List.map_append]
            simp only [List.map_cons, List.map_nil]
            rw [List.nodup_append]
            refine ⟨hnd, List.nodup_singleton _, ?_⟩
            intro k hk hk1
            have hknot := (alookup_eq_none_iff h.matched_files _).mp
              (is_already_matched_false_lookup env h _ _ hg hguard)
            simp only [List.mem_singleton] at hk1
            rw [hk1] at hk
            exact hknot hk
          · intro kv hkv
            exact List.mem_append_left _ hkv
      have hrest := ih (record_match env now h a.file_path jp.2.file_path)
        hmono.1
      exact ⟨hrest.1, fun kv hkv => hrest.2 kv (hmono.2 kv hkv)⟩

theorem foldl_pending_preserves_matched (env : Env) (now : Int)
    (X : List SwiftMessage) (t : String) :
    ∀ (L : List SwiftMessage) (h : History),
      (L.foldl (fun acc msg => if msg ∈ X then
        add_to_pending env now acc msg.file_path t else acc)
          h).matched_files = h.matched_files := by
  intro L
  induction L with
  | nil => intro h; rfl
  | cons m rest ih =>
    intro h
    simp only [List.foldl_cons]
    rw [ih]
    split_ifs <;> simp [add_to_pending_matched_files]

/-- C1 amended — MatchPair keys are recorded at most once: `match_messages`
never overwrites an existing `matched_files` entry, and the keys stay
pairwise distinct (every match recorded in a cycle passed the
already-matched guard, so its key is fresh); a single fingerprint may
still appear in several different keys. -/
theorem matchpair_key_recorded_once (env : Env) (now : Int) (h : History)
    (newA newB : List SwiftMessage)
    (hnd : (h.matched_files.map Prod.fst).Nodup) :
    (((match_messages env now h newA newB).2.matched_files.map
      Prod.fst).Nodup)
    ∧ (∀ kv ∈ h.matched_files,
        kv ∈ (match_messages env now h newA newB).2.matched_files) := by
  unfold match_messages
  dsimp only
  rw [foldl_pending_preserves_matched, foldl_pending_preserves_matched]
  exact matchOuter_matched_nodup env now _ _ h hnd

theorem matchpair_key_recorded_once_witness :
    (((match_messages envDouble 0 emptyHistory [a1Double, a2Double]
      [bDouble]).2.matched_files.map Prod.fst).Nodup)
    ∧ (∀ kv ∈ emptyHistory.matched_files,
        kv ∈ (match_messages envDouble 0 emptyHistory [a1Double, a2Double]
          [bDouble]).2.matched_files) :=
  matchpair_key_recorded_once envDouble 0 emptyHistory
    [a1Double, a2Double] [bDouble] (by decide)

theorem setAdd_mem_self (l : List String) (x : String) : x ∈ setAdd l x := by
  unfold setAdd
  split_ifs with hx
  · exact hx
  · simp

theorem setAdd_mem_mono (l : List String) (x y : String) (hx : x ∈ l) :
    x ∈ setAdd l y := by
  unfold setAdd
  split_ifs
  · exact hx
  · simp [hx]

theorem mark_unmatched_processed_mt910_mono (h : History) (f g t : String)
    (hf : f ∈ h.processed_mt910) :
    f ∈ (mark_as_permanently_unmatched h g t).processed_mt910 := by
  unfold mark_as_permanently_unmatched
  split_ifs
  · exact setAdd_mem_mono _ _ _ hf
  · exact hf

theorem mark_unmatched_pending_mt910_keys_anti (h : History) (f g t : String)
    (hf : f ∉ h.pending_mt910.map Prod.fst) :
    f ∉ (mark_as_permanently_unmatched h g t).pending_mt910.map
      Prod.fst := by
  unfold mark_as_permanently_unmatched
  split_ifs <;> intro hmem <;> apply hf
  · obtain ⟨kv, hkv, hk⟩ := List.mem_map.mp hmem
    exact hk ▸ List.mem_map_of_mem _ (List.mem_of_mem_filter hkv)
  · exact hmem

theorem expiryStepA_processed_mono (env : Env) (acc : History)
    (e : ExpiredEntry) (f : String) (hf : f ∈ acc.processed_mt910) :
    f ∈ (expiryStepA env acc e).processed_mt910 := by
  unfold expiryStepA
  split_ifs
  · exact mark_unmatched_processed_mt910_mono _ _ _ _ hf
  · exact hf

theorem expiryStepA_pending_keys_anti (env : Env) (acc : History)
    (e : ExpiredEntry) (f : String)
    (hf : f ∉ acc.pending_mt910.map Prod.fst) :
    f ∉ (expiryStepA env acc e).pending_mt910.map Prod.fst := by
  unfold expiryStepA
  split_ifs
  · exact mark_unmatched_pending_mt910_keys_anti _ _ _ _ hf
  · exact hf

theorem foldA_marks (env : Env) :
    ∀ (l : List ExpiredEntry) (acc : History) (e : ExpiredEntry),
      e ∈ l → pathExists env e.path = true →
      (e.hash ∈ (l.foldl (expiryStepA env) acc).processed_mt910
        ∧ e.hash ∉ ((l.foldl (expiryStepA env) acc).pending_mt910.map
            Prod.fst)) := by
  intro l
  induction l with
  | nil =>
    intro acc e he
    exact absurd he (List.not_mem_nil e)
  | cons x rest ih =>
    intro acc e he hex
    rcases List.mem_cons.mp he with heq | hrest
    · subst heq
      simp only [List.foldl_cons]
      have hstep : e.hash ∈ (expiryStepA env acc e).processed_mt910 ∧
          e.hash ∉ (expiryStepA env acc e).pending_mt910.map Prod.fst := by
        unfold expiryStepA
        rw [if_pos hex]
        unfold mark_as_permanently_unmatched
        rw [if_pos rfl]
        refine ⟨setAdd_mem_self _ _, ?_⟩
        intro hmem
        obtain ⟨kv, hkv, hk⟩ := List.mem_map.mp hmem
        have := List.of_mem_filter hkv
        simp only [decide_eq_true_eq] at this
        exact this hk
      have hpro : ∀ (L : List ExpiredEntry) (acc' : History),
          e.hash ∈ acc'.processed_mt910 →
          e.hash ∉ acc'.pending_mt910.map Prod.fst →
          (e.hash ∈ (L.foldl (expiryStepA env) acc').processed_mt910 ∧
            e.hash ∉ (L.foldl (expiryStepA env) acc').pending_mt910.map
              Prod.fst) := by
        intro L
        induction L with
        | nil => intro acc' h1 h2; exact ⟨h1, h2⟩
        | cons y ys ihy =>
          intro acc' h1 h2
          simp only [List.foldl_cons]
          exact ihy _ (expiryStepA_processed_mono env acc' y _ h1)
            (expiryStepA_pending_keys_anti env acc' y _ h2)
      exact hpro rest _ hstep.1 hstep.2
    · simp only [List.foldl_cons]
      exact ih _ e hrest hex

theorem foldB_preserves_mt910 (env : Env) :
    ∀ (l : List ExpiredEntry) (acc : History),
      ((l.foldl (expiryStepB env) acc).processed_mt910 =
          acc.processed_mt910
        ∧ (l.foldl (expiryStepB env) acc).pending_mt910 =
          acc.pending_mt910) := by
  intro l
  induction l with
  | nil => intro acc; exact ⟨rfl, rfl⟩
  | cons x rest ih =>
    intro acc
    simp only [List.foldl_cons]
    have hstep : (expiryStepB env acc x).processed_mt910 =
        acc.processed_mt910 ∧
        (expiryStepB env acc x).pending_mt910 = acc.pending_mt910 := by
      unfold expiryStepB
      split_ifs
      · unfold mark_as_permanently_unmatched
        rw [if_neg (by decide : ¬("PACS008" = "MT910"))]
        exact ⟨rfl, rfl⟩
      · exact ⟨rfl, rfl⟩
    obtain ⟨h1, h2⟩ := ih (expiryStepB env acc x)
    rw [h1, h2, hstep.1, hstep.2]
    exact ⟨rfl, rfl⟩

theorem mark_unmatched_processed_pacs008_mono (h : History)
    (f g t : String) (hf : f ∈ h.processed_pacs008) :
    f ∈ (mark_as_permanently_unmatched h g t).processed_pacs008 := by
  unfold mark_as_permanently_unmatched
  split_ifs
  · exact hf
  · exact setAdd_mem_mono _ _ _ hf

theorem mark_unmatched_pending_pacs008_keys_anti (h : History)
    (f g t : String) (hf : f ∉ h.pending_pacs008.map Prod.fst) :
    f ∉ (mark_as_permanently_unmatched h g t).pending_pacs008.map
      Prod.fst := by
  unfold mark_as_permanently_unmatched
  split_ifs <;> intro hmem <;> apply hf
  · exact hmem
  · obtain ⟨kv, hkv, hk⟩ := List.mem_map.mp hmem
    exact hk ▸ List.mem_map_of_mem _ (List.mem_of_mem_filter hkv)

theorem expiryStepB_processed_mono (env : Env) (acc : History)
    (e : ExpiredEntry) (f : String) (hf : f ∈ acc.processed_pacs008) :
    f ∈ (expiryStepB env acc e).processed_pacs008 := by
  unfold expiryStepB
  split_ifs
  · exact mark_unmatched_processed_pacs008_mono _ _ _ _ hf
  · exact hf

theorem expiryStepB_pending_keys_anti (env : Env) (acc : History)
    (e : ExpiredEntry) (f : String)
    (hf : f ∉ acc.pending_pacs008.map Prod.fst) :
    f ∉ (expiryStepB env acc e).pending_pacs008.map Prod.fst := by
  unfold expiryStepB
  split_ifs
  · exact mark_unmatched_pending_pacs008_keys_anti _ _ _ _ hf
  · exact hf

theorem foldB_marks (env : Env) :
    ∀ (l : List ExpiredEntry) (acc : History) (e : ExpiredEntry),
      e ∈ l → pathExists env e.path = true →
      (e.hash ∈ (l.foldl (expiryStepB env) acc).processed_pacs008
        ∧ e.hash ∉ ((l.foldl (expiryStepB env) acc).pending_pacs008.map
            Prod.fst)) := by
  intro l
  induction l with
  | nil =>
    intro acc e he
    exact absurd he (List.not_mem_nil e)
  | cons x rest ih =>
    intro acc e he hex
    rcases List.mem_cons.mp he with heq | hrest
    · subst heq
      simp only [List.foldl_cons]
      have hstep : e.hash ∈ (expiryStepB env acc e).processed_pacs008 ∧
          e.hash ∉ (expiryStepB env acc e).pending_pacs008.map
            Prod.fst := by
        unfold expiryStepB
        rw [if_pos hex]
        unfold mark_as_permanently_unmatched
        rw [if_neg (by decide : ¬("PACS008" = "MT910"))]
        refine ⟨setAdd_mem_self _ _, ?_⟩
        intro hmem
        obtain ⟨kv, hkv, hk⟩ := List.mem_map.mp hmem
        have := List.of_mem_filter hkv
        simp only [decide_eq_true_eq] at this
        exact this hk
      have hpro : ∀ (L : List ExpiredEntry) (acc' : History),
          e.hash ∈ acc'.processed_pacs008 →
          e.hash ∉ acc'.pending_pacs008.map Prod.fst →
          (e.hash ∈ (L.foldl (expiryStepB env) acc').processed_pacs008 ∧
            e.hash ∉ (L.foldl (expiryStepB env) acc').pending_pacs008.map
              Prod.fst) := by
        intro L
        induction L with
        | nil => intro acc' h1 h2; exact ⟨h1, h2⟩
        | cons y ys ihy =>
          intro acc' h1 h2
          simp only [List.foldl_cons]
          exact ihy _ (expiryStepB_processed_mono env acc' y _ h1)
            (expiryStepB_pending_keys_anti env acc' y _ h2)
      exact hpro rest _ hstep.1 hstep.2
    · simp only [List.foldl_cons]
      exact ih _ e hrest hex

/-- C4 amended — Expiry is terminal only for documents still on disk:
an expired pending entry of either side whose file still exists is, in
the cycle that collects it, added to the resolved set of its side and
removed from that pending pool; an expired entry whose file has
disappeared is skipped by the copy loop (neither copied nor marked) and
stays in the pending pool. -/
theorem expiry_terminal_when_file_exists (env : Env) (h : History)
    (now : Int) (f : String) (d : PendingData)
    (hexp : now - d.first_seen ≥ h.waiting_days)
    (hex : pathExists env d.path = true) :
    ((f, d) ∈ h.pending_mt910 →
      f ∈ (copy_unmatched_files env h now).processed_mt910
      ∧ f ∉ (copy_unmatched_files env h now).pending_mt910.map Prod.fst)
    ∧ ((f, d) ∈ h.pending_pacs008 →
      f ∈ (copy_unmatched_files env h now).processed_pacs008
      ∧ f ∉ (copy_unmatched_files env h
          now).pending_pacs008.map Prod.fst) := by
  constructor
  · intro hmem
    have hemem : (⟨f, d.path, now - d.first_seen⟩ : ExpiredEntry) ∈
        (get_expired_pending_files h now).1 := by
      unfold get_expired_pending_files
      dsimp only
      exact List.mem_filterMap.mpr ⟨(f, d), hmem, by rw [if_pos hexp]⟩
    have hne : ¬((get_expired_pending_files h now).1 = [] ∧
        (get_expired_pending_files h now).2 = []) := by
      rintro ⟨h1, _⟩
      rw [h1] at hemem
      exact absurd hemem (List.not_mem_nil _)
    unfold copy_unmatched_files
    dsimp only
    rw [if_neg hne]
    have hA := foldA_marks env (get_expired_pending_files h now).1 h
      ⟨f, d.path, now - d.first_seen⟩ hemem hex
    have hB := foldB_preserves_mt910 env
      (get_expired_pending_files h now).2
      ((get_expired_pending_files h now).1.foldl (expiryStepA env) h)
    rw [hB.1, hB.2]
    exact hA
  · intro hmem
    have hemem : (⟨f, d.path, now - d.first_seen⟩ : ExpiredEntry) ∈
        (get_expired_pending_files h now).2 := by
      unfold get_expired_pending_files
      dsimp only
      exact List.mem_filterMap.mpr ⟨(f, d), hmem, by rw [if_pos hexp]⟩
    have hne : ¬((get_expired_pending_files h now).1 = [] ∧
        (get_expired_pending_files h now).2 = []) := by
      rintro ⟨_, h2⟩
      rw [h2] at hemem
      exact absurd hemem (List.not_mem_nil _)
    unfold copy_unmatched_files
    dsimp only
    rw [if_neg hne]
    exact foldB_marks env (get_expired_pending_files h now).2
      ((get_expired_pending_files h now).1.foldl (expiryStepA env) h)
      ⟨f, d.path, now - d.first_seen⟩ hemem hex

/-- Environment for the expiry witness: both expired documents on disk. -/
def envExpiry : Env :=
  { fs := [("p1", "w"), ("p2", "v")],
    parseMtCore := fun _ => blankCore,
    parsePacsCore := fun _ => blankCore }

/-- State with one expired pending entry on each side, both files on
disk. -/
def histExpiryBoth : History :=
  { matched_files := [], processed_mt910 := [], processed_pacs008 := [],
    pending_mt910 := [("#c1", ⟨"p1", 5⟩)],
    pending_pacs008 := [("#c2", ⟨"p2", 5⟩)],
    waiting_days := 5, last_run := some 9 }

theorem expiry_terminal_when_file_exists_witness :
    ("#c1" ∈ (copy_unmatched_files envExpiry histExpiryBoth
      10).processed_mt910
    ∧ "#c1" ∉ (copy_unmatched_files envExpiry histExpiryBoth
      10).pending_mt910.map Prod.fst)
    ∧ ("#c2" ∈ (copy_unmatched_files envExpiry histExpiryBoth
      10).processed_pacs008
    ∧ "#c2" ∉ (copy_unmatched_files envExpiry histExpiryBoth
      10).pending_pacs008.map Prod.fst) :=
  ⟨(expiry_terminal_when_file_exists envExpiry histExpiryBoth 10 "#c1"
      ⟨"p1", 5⟩ (by decide) (by decide)).1 (by decide),
    (expiry_terminal_when_file_exists envExpiry histExpiryBoth 10 "#c2"
      ⟨"p2", 5⟩ (by decide) (by decide)).2 (by decide)⟩

/-- State with one expired pending entry on each side, both files
vanished from disk. -/
def histMissing : History :=
  { matched_files := [], processed_mt910 := [], processed_pacs008 := [],
    pending_mt910 := [("#zz", ⟨"gone", 0⟩)],
    pending_pacs008 := [("#ww", ⟨"gone2", 0⟩)],
    waiting_days := 5, last_run := some 0 }

/-- Environment for the missing-file expiry scenario: empty disk. -/
def envMissing : Env :=
  { fs := [],
    parseMtCore := fun _ => blankCore,
    parsePacsCore := fun _ => blankCore }

theorem expiry_terminal_counterexample :
    ((⟨"#zz", "gone", 10⟩ : ExpiredEntry) ∈
      (get_expired_pending_files histMissing 10).1)
    ∧ ((⟨"#ww", "gone2", 10⟩ : ExpiredEntry) ∈
      (get_expired_pending_files histMissing 10).2)
    ∧ "#zz" ∉ (copy_unmatched_files envMissing histMissing
        10).processed_mt910
    ∧ ("#zz", (⟨"gone", 0⟩ : PendingData)) ∈
        (copy_unmatched_files envMissing histMissing 10).pending_mt910
    ∧ "#ww" ∉ (copy_unmatched_files envMissing histMissing
        10).processed_pacs008
    ∧ ("#ww", (⟨"gone2", 0⟩ : PendingData)) ∈
        (copy_unmatched_files envMissing histMissing
          10).pending_pacs008 := by
  refine ⟨by decide, by decide, by decide, by decide, by decide,
    by decide⟩

/-- C6 amended — Persistence failure is absorbed, not fatal: a failing
snapshot write is caught and logged inside `_save_history`, so the cycle
completes normally — every output of `run_matching` except the written
snapshot itself is independent of whether the write succeeds, and there is
no abort path (no ABORTED state exists in the code); the write goes
directly to the history file, with no temporary-file atomic replace. -/
theorem persistence_failure_absorbed (env : Env) (h : History) (now : Int)
    (newA newB : List SwiftMessage) (verbose writeOk : Bool) :
    ((run_matching env h now newA newB verbose writeOk).stats =
      (run_matching env h now newA newB verbose true).stats)
    ∧ ((run_matching env h now newA newB verbose writeOk).matchRows =
      (run_matching env h now newA newB verbose true).matchRows)
    ∧ ((run_matching env h now newA newB verbose writeOk).unmatched_mt910 =
      (run_matching env h now newA newB verbose true).unmatched_mt910)
    ∧ ((run_matching env h now newA newB verbose
        writeOk).unmatched_pacs008 =
      (run_matching env h now newA newB verbose true).unmatched_pacs008)
    ∧ ((run_matching env h now newA newB verbose writeOk).hist =
      (run_matching env h now newA newB verbose true).hist)
    ∧ ((run_matching env h now newA newB verbose writeOk).saveAttempted =
      (run_matching env h now newA newB verbose true).saveAttempted) := by
  unfold run_matching
  split_ifs <;> exact ⟨rfl, rfl, rfl, rfl, rfl, rfl⟩

theorem persistence_failure_counterexample :
    ((run_matching envStats histStats 1 [] [pacsNewStats] true
      false).saveAttempted = true)
    ∧ ((run_matching envStats histStats 1 [] [pacsNewStats] true
      false).snapshot = none)
    ∧ ((run_matching envStats histStats 1 [] [pacsNewStats] true
      false).matchRows =
      (run_matching envStats histStats 1 [] [pacsNewStats] true
        true).matchRows)
    ∧ ((run_matching envStats histStats 1 [] [pacsNewStats] true
      false).hist =
      (run_matching envStats histStats 1 [] [pacsNewStats] true
        true).hist) := by
  refine ⟨by decide, by decide, by decide, by decide⟩

theorem is_already_matched_congr (env : Env) (h h' : History)
    (hm : h.matched_files = h'.matched_files) (p q : String) :
    is_already_matched env h p q = is_already_matched env h' p q := by
  unfold is_already_matched
  rw [hm]

theorem alookup_append {kt at' : Type} [DecidableEq kt]
    (l l2 : List (kt × at')) (k : kt) :
    alookup (l ++ l2) k =
      if (alookup l k).isSome then alookup l k else alookup l2 k := by
  induction l with
  | nil => simp [alookup]
  | cons kv rest ih =>
    by_cases hkv : kv.1 = k
    · simp [alookup, hkv]
    · simp only [List.cons_append, alookup, hkv, if_false]
      exact ih

theorem alookup_map_replace {α : Type} (l : List ((String × String) × α))
    (k k' : String × String) (v : α) (hne : k ≠ k') :
    alookup (l.map fun kv => if kv.1 = k' then (k', v) else kv) k =
      alookup l k := by
  induction l with
  | nil => rfl
  | cons kv rest ih =>
    by_cases hkv : kv.1 = k'
    · have h1 : ¬(k' = k) := fun hc => hne hc.symm
      have h2 : ¬(kv.1 = k) := fun hc => hne (hkv.symm.trans hc).symm
      rw [List.map_cons, if_pos hkv]
      simp only [alookup]
      rw [if_neg h1, if_neg h2]
      exact ih
    · rw [List.map_cons, if_neg hkv]
      simp only [alookup]
      by_cases hk : kv.1 = k
      · rw [if_pos hk, if_pos hk]
      · rw [if_neg hk, if_neg hk]
        exact ih

theorem alookup_dictInsert_self {α : Type}
    (l : List ((String × String) × α)) (k' : String × String) (v : α) :
    alookup (dictInsert l k' v) k' = some v := by
  unfold dictInsert
  split_ifs with hp
  · induction l with
    | nil => simp [alookup] at hp
    | cons kv rest ih =>
      by_cases hkv : kv.1 = k'
      · simp [alookup, hkv]
      · simp only [alookup, hkv, if_false] at hp
        simp only [List.map_cons, if_neg hkv, alookup, hkv, if_false]
        exact ih hp
  · rw [alookup_append]
    rcases ho : alookup l k' with _ | w
    · simp [alookup]
    · rw [ho] at hp
      simp at hp

theorem alookup_dictInsert_isSome_mono {α : Type}
    (l : List ((String × String) × α)) (k k' : String × String) (v : α)
    (hk : (alookup l k).isSome = true) :
    (alookup (dictInsert l k' v) k).isSome = true := by
  by_cases hkk : k = k'
  · subst hkk
    rw [alookup_dictInsert_self]
    rfl
  · unfold dictInsert
    split_ifs with hp
    · rw [alookup_map_replace _ _ _ _ hkk]
      exact hk
    · rw [alookup_append, if_pos hk]
      exact hk

theorem record_match_already_mono (env : Env) (now : Int) (h : History)
    (pa pb p q : String)
    (halready : is_already_matched env h p q = true) :
    is_already_matched env (record_match env now h pa pb) p q = true := by
  unfold is_already_matched at halready ⊢
  dsimp only at halready ⊢
  split_ifs at halready ⊢ with hg
  rw [record_match_matched_files]
  split_ifs with hg2
  · exact halready
  · exact alookup_dictInsert_isSome_mono _ _ _ _ halready

theorem matchOuter_already_mono (env : Env) (now : Int)
    (allB : List SwiftMessage) :
    ∀ (L : List SwiftMessage) (h : History) (p q : String),
      is_already_matched env h p q = true →
      is_already_matched env (matchOuter env now allB L h).1 p q = true := by
  intro L
  induction L with
  | nil => intro h p q hal; exact hal
  | cons a rest ih =>
    intro h p q hal
    rcases hf : findCounterpart env h a allB with _ | jp
    · simp only [matchOuter, hf]
      exact ih h p q hal
    · simp only [matchOuter, hf]
      exact ih _ p q (record_match_already_mono env now h _ _ p q hal)

theorem pendingPool_mem_iff (env : Env)
    (pending : List (String × PendingData))
    (parse : Env → String → String → SwiftMessage) (m : SwiftMessage) :
    m ∈ pendingPool env pending parse ↔
      ∃ kv ∈ pending, ∃ c, alookup env.fs kv.2.path = some c ∧ c ≠ "" ∧
        m = parse env c kv.2.path := by
  unfold pendingPool
  rw [List.mem_filterMap]
  constructor
  · rintro ⟨kv, hkv, hsome⟩
    rcases hlk : alookup env.fs kv.2.path with _ | c
    · rw [pathExists, extract_text, hlk] at hsome
      simp at hsome
    · rw [pathExists, extract_text, hlk] at hsome
      simp only [Option.isSome_some, if_true, Option.getD_some] at hsome
      by_cases hc : c ≠ ""
      · rw [if_pos hc] at hsome
        exact ⟨kv, hkv, c, hlk, hc, (Option.some.inj hsome).symm⟩
      · rw [if_neg hc] at hsome
        simp at hsome
  · rintro ⟨kv, hkv, c, hlk, hc, rfl⟩
    refine ⟨kv, hkv, ?_⟩
    rw [pathExists, extract_text, hlk]
    simp only [Option.isSome_some, if_true, Option.getD_some]
    rw [if_pos hc]

theorem findCounterpart_none_of_blocked (env : Env) (h : History)
    (a : SwiftMessage) (allB : List SwiftMessage)
    (hblock : ∀ b ∈ allB, is_already_matched env h a.file_path
      b.file_path = true ∨ is_match a b = false) :
    findCounterpart env h a allB = none := by
  unfold findCounterpart
  rw [List.find?_eq_none]
  rintro ⟨j, b⟩ hjb
  have hb : b ∈ allB := by
    have := List.mem_map_of_mem Prod.snd hjb
    rw [List.enum_map_snd] at this
    exact this
  rcases hblock b hb with hal | hnm
  · simp [hal]
  · simp [hnm]

theorem matchOuter_noop_of_blocked (env : Env) (now : Int)
    (allB : List SwiftMessage) :
    ∀ (L : List SwiftMessage) (h : History),
      (∀ a ∈ L, ∀ b ∈ allB, is_already_matched env h a.file_path
        b.file_path = true ∨ is_match a b = false) →
      matchOuter env now allB L h = (h, [], L, []) := by
  intro L
  induction L with
  | nil => intro h _; rfl
  | cons a rest ih =>
    intro h hblock
    have hf : findCounterpart env h a allB = none :=
      findCounterpart_none_of_blocked env h a allB
        (hblock a (List.mem_cons_self a rest))
    simp only [matchOuter, hf]
    rw [ih h (fun x hx b hb => hblock x (List.mem_cons_of_mem a hx) b hb)]

theorem matchOuter_nonA_blocked (env : Env) (now : Int)
    (allB : List SwiftMessage) :
    ∀ (L : List SwiftMessage) (h : History),
      ∀ a ∈ (matchOuter env now allB L h).2.2.1, ∀ b ∈ allB,
        is_already_matched env (matchOuter env now allB L h).1
          a.file_path b.file_path = true ∨ is_match a b = false := by
  intro L
  induction L with
  | nil =>
    intro h a ha
    exact absurd ha (List.not_mem_nil a)
  | cons x rest ih =>
    intro h a ha b hb
    rcases hf : findCounterpart env h x allB with _ | jp
    · simp only [matchOuter, hf] at ha ⊢
      rcases List.mem_cons.mp ha with rfl | hrest
      · obtain ⟨jb, hjb, hsnd⟩ := List.mem_map.mp
          (by rw [List.enum_map_snd]; exact hb :
            b ∈ allB.enum.map Prod.snd)
        have hnone : ∀ x ∈ allB.enum,
            ¬((!(is_already_matched env h a.file_path x.2.file_path) &&
              is_match a x.2) = true) := by
          have hf' : allB.enum.find? (fun jp =>
              !(is_already_matched env h a.file_path jp.2.file_path) &&
                is_match a jp.2) = none := by
            rw [← hf]
            rfl
          exact List.find?_eq_none.mp hf'
        have hpred := hnone jb hjb
        rw [hsnd] at hpred
        by_cases hal : is_already_matched env h a.file_path
            b.file_path = true
        · exact Or.inl (matchOuter_already_mono env now allB rest h _ _ hal)
        · right
          by_cases him : is_match a b = true
          · exact absurd (by
              rw [him, Bool.eq_false_iff.mpr hal]
              rfl) hpred
          · exact Bool.eq_false_iff.mpr him
      · exact ih h a hrest b hb
    · simp only [matchOuter, hf] at ha ⊢
      exact ih _ a ha b hb

theorem matchOuter_pending_mt910_backward (env : Env) (now : Int)
    (allB : List SwiftMessage) :
    ∀ (L : List SwiftMessage) (h : History) (kv : String × PendingData),
      kv ∈ (matchOuter env now allB L h).1.pending_mt910 →
      kv ∈ h.pending_mt910 := by
  intro L
  induction L with
  | nil => intro h kv hkv; exact hkv
  | cons x rest ih =>
    intro h kv hkv
    rcases hf : findCounterpart env h x allB with _ | jp
    · simp only [matchOuter, hf] at hkv
      exact ih h kv hkv
    · simp only [matchOuter, hf] at hkv
      have h1 := ih _ kv hkv
      rw [record_match_pending_mt910] at h1
      split_ifs at h1
      · exact h1
      · exact List.mem_of_mem_filter h1

theorem matchOuter_pending_pacs008_backward (env : Env) (now : Int)
    (allB : List SwiftMessage) :
    ∀ (L : List SwiftMessage) (h : History) (kv : String × PendingData),
      kv ∈ (matchOuter env now allB L h).1.pending_pacs008 →
      kv ∈ h.pending_pacs008 := by
  intro L
  induction L with
  | nil => intro h kv hkv; exact hkv
  | cons x rest ih =>
    intro h kv hkv
    rcases hf : findCounterpart env h x allB with _ | jp
    · simp only [matchOuter, hf] at hkv
      exact ih h kv hkv
    · simp only [matchOuter, hf] at hkv
      have h1 := ih _ kv hkv
      rw [record_match_pending_pacs008] at h1
      split_ifs at h1
      · exact h1
      · exact List.mem_of_mem_filter h1

theorem matchOuter_deleted_or_unmatched (env : Env) (now : Int)
    (allB : List SwiftMessage)
    (hBne : ∀ b ∈ allB, get_file_hash env b.file_path ≠ "") :
    ∀ (L : List SwiftMessage) (h : History) (m : SwiftMessage),
      m ∈ L → get_file_hash env m.file_path ≠ "" →
      ((∀ g : PendingData, (get_file_hash env m.file_path, g) ∉
        (matchOuter env now allB L h).1.pending_mt910)
      ∨ m ∈ (matchOuter env now allB L h).2.2.1) := by
  intro L
  induction L with
  | nil =>
    intro h m hm
    exact absurd hm (List.not_mem_nil m)
  | cons x rest ih =>
    intro h m hm hmne
    rcases List.mem_cons.mp hm with rfl | hrest
    · rcases hf : findCounterpart env h m allB with _ | jp
      · right
        simp only [matchOuter, hf]
        exact List.mem_cons_self _ _
      · left
        simp only [matchOuter, hf]
        intro g hg
        have hg1 := matchOuter_pending_mt910_backward env now allB rest _ _
          hg
        have hbmem : jp.2 ∈ allB := by
          have hf' : allB.enum.find? (fun jp =>
              !(is_already_matched env h m.file_path jp.2.file_path) &&
                is_match m jp.2) = some jp := by
            rw [← hf]
            rfl
          have := List.mem_of_find?_eq_some hf'
          have h2 := List.mem_map_of_mem Prod.snd this
          rw [List.enum_map_snd] at h2
          exact h2
        have hbne := hBne jp.2 hbmem
        rw [record_match_pending_mt910,
          if_neg (by
            rintro (hc | hc)
            · exact hmne hc
            · exact hbne hc)] at hg1
        have := List.of_mem_filter hg1
        simp at this
    · rcases hf : findCounterpart env h x allB with _ | jp
      · simp only [matchOuter, hf]
        rcases ih h m hrest hmne with hdel | hnm
        · exact Or.inl hdel
        · exact Or.inr (List.mem_cons_of_mem _ hnm)
      · simp only [matchOuter, hf]
        exact ih _ m hrest hmne

theorem add_to_pending_pacs_preserves_mt910 (env : Env) (now : Int)
    (h : History) (p : String) :
    (add_to_pending env now h p "PACS008").pending_mt910 =
      h.pending_mt910 := by
  unfold add_to_pending
  dsimp only
  split_ifs <;> simp_all

theorem add_to_pending_mt_preserves_pacs008 (env : Env) (now : Int)
    (h : History) (p : String) :
    (add_to_pending env now h p "MT910").pending_pacs008 =
      h.pending_pacs008 := by
  unfold add_to_pending
  dsimp only
  split_ifs <;> simp_all

theorem foldl_addB_preserves_mt910 (env : Env) (now : Int)
    (newB : List SwiftMessage) :
    ∀ (L : List SwiftMessage) (h : History),
      (L.foldl (fun acc msg => if msg ∈ newB then
        add_to_pending env now acc msg.file_path "PACS008" else acc)
          h).pending_mt910 = h.pending_mt910 := by
  intro L
  induction L with
  | nil => intro h; rfl
  | cons m rest ih =>
    intro h
    simp only [List.foldl_cons]
    rw [ih]
    split_ifs
    · exact add_to_pending_pacs_preserves_mt910 env now h m.file_path
    · rfl

theorem foldl_addA_preserves_pacs008 (env : Env) (now : Int)
    (newA : List SwiftMessage) :
    ∀ (L : List SwiftMessage) (h : History),
      (L.foldl (fun acc msg => if msg ∈ newA then
        add_to_pending env now acc msg.file_path "MT910" else acc)
          h).pending_pacs008 = h.pending_pacs008 := by
  intro L
  induction L with
  | nil => intro h; rfl
  | cons m rest ih =>
    intro h
    simp only [List.foldl_cons]
    rw [ih]
    split_ifs
    · exact add_to_pending_mt_preserves_pacs008 env now h m.file_path
    · rfl

theorem add_to_pending_mt910_mem (env : Env) (now : Int) (h : History)
    (p : String) (kv : String × PendingData)
    (hkv : kv ∈ (add_to_pending env now h p "MT910").pending_mt910) :
    kv ∈ h.pending_mt910 ∨
      kv = (get_file_hash env p, (⟨p, now⟩ : PendingData)) := by
  unfold add_to_pending at hkv
  dsimp only at hkv
  split_ifs at hkv
  · exact Or.inl hkv
  · exact Or.inl hkv
  · rcases List.mem_append.mp hkv with hl | hr
    · exact Or.inl hl
    · simp only [List.mem_singleton] at hr
      exact Or.inr hr
  · exact Or.inl hkv
  · exact Or.inl hkv

theorem add_to_pending_pacs008_mem (env : Env) (now : Int) (h : History)
    (p : String) (kv : String × PendingData)
    (hkv : kv ∈ (add_to_pending env now h p
      "PACS008").pending_pacs008) :
    kv ∈ h.pending_pacs008 ∨
      kv = (get_file_hash env p, (⟨p, now⟩ : PendingData)) := by
  unfold add_to_pending at hkv
  dsimp only at hkv
  split_ifs at hkv
  · exact Or.inl hkv
  · exact Or.inl hkv
  · exact Or.inl hkv
  · exact Or.inl hkv
  · rcases List.mem_append.mp hkv with hl | hr
    · exact Or.inl hl
    · simp only [List.mem_singleton] at hr
      exact Or.inr hr

theorem foldl_addA_pending_mem (env : Env) (now : Int)
    (newA : List SwiftMessage) :
    ∀ (L : List SwiftMessage) (h : History) (kv : String × PendingData),
      kv ∈ (L.foldl (fun acc msg => if msg ∈ newA then
        add_to_pending env now acc msg.file_path "MT910" else acc)
          h).pending_mt910 →
      (kv ∈ h.pending_mt910 ∨ ∃ u ∈ L, u ∈ newA ∧
        kv = (get_file_hash env u.file_path,
          (⟨u.file_path, now⟩ : PendingData))) := by
  intro L
  induction L with
  | nil => intro h kv hkv; exact Or.inl hkv
  | cons m rest ih =>
    intro h kv hkv
    simp only [List.foldl_cons] at hkv
    rcases ih _ kv hkv with hacc | ⟨u, hu, hun, heq⟩
    · by_cases hm : m ∈ newA
      · rw [if_pos hm] at hacc
        rcases add_to_pending_mt910_mem env now h m.file_path kv hacc with
          hh | heq
        · exact Or.inl hh
        · exact Or.inr ⟨m, List.mem_cons_self m rest, hm, heq⟩
      · rw [if_neg hm] at hacc
        exact Or.inl hacc
    · exact Or.inr ⟨u, List.mem_cons_of_mem m hu, hun, heq⟩

theorem foldl_addB_pending_mem (env : Env) (now : Int)
    (newB : List SwiftMessage) :
    ∀ (L : List SwiftMessage) (h : History) (kv : String × PendingData),
      kv ∈ (L.foldl (fun acc msg => if msg ∈ newB then
        add_to_pending env now acc msg.file_path "PACS008" else acc)
          h).pending_pacs008 →
      (kv ∈ h.pending_pacs008 ∨ ∃ u ∈ L, u ∈ newB ∧
        kv = (get_file_hash env u.file_path,
          (⟨u.file_path, now⟩ : PendingData))) := by
  intro L
  induction L with
  | nil => intro h kv hkv; exact Or.inl hkv
  | cons m rest ih =>
    intro h kv hkv
    simp only [List.foldl_cons] at hkv
    rcases ih _ kv hkv with hacc | ⟨u, hu, hun, heq⟩
    · by_cases hm : m ∈ newB
      · rw [if_pos hm] at hacc
        rcases add_to_pending_pacs008_mem env now h m.file_path kv hacc
          with hh | heq
        · exact Or.inl hh
        · exact Or.inr ⟨m, List.mem_cons_self m rest, hm, heq⟩
      · rw [if_neg hm] at hacc
        exact Or.inl hacc
    · exact Or.inr ⟨u, List.mem_cons_of_mem m hu, hun, heq⟩

theorem foldA_expiry_pending_mt910_backward (env : Env) :
    ∀ (l : List ExpiredEntry) (acc : History) (kv : String × PendingData),
      kv ∈ (l.foldl (expiryStepA env) acc).pending_mt910 →
      kv ∈ acc.pending_mt910 := by
  intro l
  induction l with
  | nil => intro acc kv hkv; exact hkv
  | cons e rest ih =>
    intro acc kv hkv
    simp only [List.foldl_cons] at hkv
    have h1 := ih _ kv hkv
    unfold expiryStepA at h1
    split_ifs at h1
    · unfold mark_as_permanently_unmatched at h1
      rw [if_pos rfl] at h1
      exact List.mem_of_mem_filter h1
    · exact h1

theorem foldA_expiry_preserves_pacs008 (env : Env) :
    ∀ (l : List ExpiredEntry) (acc : History),
      (l.foldl (expiryStepA env) acc).pending_pacs008 =
        acc.pending_pacs008 := by
  intro l
  induction l with
  | nil => intro acc; rfl
  | cons e rest ih =>
    intro acc
    simp only [List.foldl_cons]
    rw [ih]
    unfold expiryStepA
    split_ifs
    · unfold mark_as_permanently_unmatched
      rw [if_pos rfl]
    · rfl

theorem foldB_expiry_pending_pacs008_backward (env : Env) :
    ∀ (l : List ExpiredEntry) (acc : History) (kv : String × PendingData),
      kv ∈ (l.foldl (expiryStepB env) acc).pending_pacs008 →
      kv ∈ acc.pending_pacs008 := by
  intro l
  induction l with
  | nil => intro acc kv hkv; exact hkv
  | cons e rest ih =>
    intro acc kv hkv
    simp only [List.foldl_cons] at hkv
    have h1 := ih _ kv hkv
    unfold expiryStepB at h1
    split_ifs at h1
    · unfold mark_as_permanently_unmatched at h1
      rw [if_neg (by decide : ¬("PACS008" = "MT910"))] at h1
      exact List.mem_of_mem_filter h1
    · exact h1

theorem copy_unmatched_pending_mt910_backward (env : Env) (h : History)
    (now : Int) (kv : String × PendingData)
    (hkv : kv ∈ (copy_unmatched_files env h now).pending_mt910) :
    kv ∈ h.pending_mt910 := by
  unfold copy_unmatched_files at hkv
  dsimp only at hkv
  split_ifs at hkv
  · exact hkv
  · rw [(foldB_preserves_mt910 env _ _).2] at hkv
    exact foldA_expiry_pending_mt910_backward env _ _ kv hkv

theorem copy_unmatched_pending_pacs008_backward (env : Env) (h : History)
    (now : Int) (kv : String × PendingData)
    (hkv : kv ∈ (copy_unmatched_files env h now).pending_pacs008) :
    kv ∈ h.pending_pacs008 := by
  unfold copy_unmatched_files at hkv
  dsimp only at hkv
  split_ifs at hkv
  · exact hkv
  · have h1 := foldB_expiry_pending_pacs008_backward env _ _ kv hkv
    rw [foldA_expiry_preserves_pacs008 env] at h1
    exact h1

theorem get_file_hash_ne_of_lookup (env : Env) (p c : String)
    (hl : alookup env.fs p = some c) : get_file_hash env p ≠ "" := by
  unfold get_file_hash
  rw [hl]
  intro he
  have hlen := congrArg String.length he
  rw [String.length_append] at hlen
  simp at hlen
  exact absurd hlen.1 (by decide)

theorem get_file_hash_eq_of_lookup (env : Env) (p c : String)
    (hl : alookup env.fs p = some c) :
    get_file_hash env p = "#" ++ c := by
  unfold get_file_hash
  rw [hl]

theorem foldl_add_nil_guard (env : Env) (now : Int) (t : String) :
    ∀ (L : List SwiftMessage) (h : History),
      (L.foldl (fun acc msg => if msg ∈ ([] : List SwiftMessage) then
        add_to_pending env now acc msg.file_path t else acc) h) = h := by
  intro L
  induction L with
  | nil => intro h; rfl
  | cons m rest ih =>
    intro h
    simp only [List.foldl_cons, List.not_mem_nil, if_false]
    exact ih h

/-- Core of the idempotence argument: after a full cycle (matching at
`now1` followed by the expiry sweep), a second `match_messages` call at
`now2` with no newly scanned records finds nothing to pair and leaves the
state untouched, provided the newly scanned records of the first cycle
really came from the (unchanged) filesystem and the pending keys of the
initial state are the fingerprints of their paths. -/
theorem second_cycle_matching_noop (env : Env) (h0 : History)
    (now1 now2 : Int) (newA newB : List SwiftMessage)
    (hA : ∀ m ∈ newA, ∃ c, alookup env.fs m.file_path = some c ∧ c ≠ "" ∧
      parseMtAt env c m.file_path = m)
    (hB : ∀ m ∈ newB, ∃ c, alookup env.fs m.file_path = some c ∧ c ≠ "" ∧
      parsePacsAt env c m.file_path = m)
    (hkey : ∀ kv ∈ h0.pending_mt910,
      kv.1 = get_file_hash env kv.2.path) :
    match_messages env now2
      (copy_unmatched_files env
        (match_messages env now1 h0 newA newB).2 now1) [] [] =
    ((([] : List MatchData),
      pendingPool env (copy_unmatched_files env
        (match_messages env now1 h0 newA newB).2 now1).pending_mt910
        parseMtAt,
      pendingPool env (copy_unmatched_files env
        (match_messages env now1 h0 newA newB).2 now1).pending_pacs008
        parsePacsAt),
      copy_unmatched_files env
        (match_messages env now1 h0 newA newB).2 now1) := by
  set allA1 := newA ++ pendingPool env h0.pending_mt910 parseMtAt with hallA1
  set allB1 := newB ++ pendingPool env h0.pending_pacs008 parsePacsAt
    with hallB1
  set loop1 := matchOuter env now1 allB1 allA1 h0 with hloop1
  set mm1 := match_messages env now1 h0 newA newB with hmm1
  set h1 := copy_unmatched_files env mm1.2 now1 with hh1
  have hmm1snd : mm1.2 =
      ((mm1.1.2.2).foldl (fun acc msg => if msg ∈ newB then
        add_to_pending env now1 acc msg.file_path "PACS008" else acc)
        ((mm1.1.2.1).foldl (fun acc msg => if msg ∈ newA then
          add_to_pending env now1 acc msg.file_path "MT910" else acc)
          loop1.1)) ∧ mm1.1.2.1 = loop1.2.2.1 := by
    rw [hmm1]
    unfold match_messages
    exact ⟨rfl, rfl⟩
  -- every record of the first-cycle PACS.008 pool has a nonempty hash
  have hBne1 : ∀ b ∈ allB1, get_file_hash env b.file_path ≠ "" := by
    intro b hb
    rcases List.mem_append.mp hb with hnew | hpool
    · obtain ⟨c, hl, _, _⟩ := hB b hnew
      exact get_file_hash_ne_of_lookup env _ c hl
    · obtain ⟨kv, _, c, hl, _, rfl⟩ := (pendingPool_mem_iff env _ _ _).mp
        hpool
      exact get_file_hash_ne_of_lookup env _ c hl
  -- the matched_files of the post-cycle state are those of the loop
  have hmatched : h1.matched_files = loop1.1.matched_files := by
    rw [hh1, copy_unmatched_files_matched_files, hmm1snd.1,
      foldl_pending_preserves_matched, foldl_pending_preserves_matched]
  -- every record of the second-cycle MT910 pool is blocked against allB1
  have hblockedA : ∀ m ∈ pendingPool env h1.pending_mt910 parseMtAt,
      ∀ b ∈ allB1,
      is_already_matched env loop1.1 m.file_path b.file_path = true ∨
        is_match m b = false := by
    intro m hm
    obtain ⟨kv, hkv, c, hl, hc, rfl⟩ := (pendingPool_mem_iff env _ _ _).mp
      hm
    have hkv2 : kv ∈ mm1.2.pending_mt910 := by
      exact copy_unmatched_pending_mt910_backward env _ now1 kv (hh1 ▸ hkv)
    rw [hmm1snd.1, foldl_addB_preserves_mt910] at hkv2
    rcases foldl_addA_pending_mem env now1 newA _ _ kv hkv2 with
      hsurv | ⟨u, hu, hun, hkveq⟩
    · -- a pending entry of the initial state that survived the loop
      have hkv0 : kv ∈ h0.pending_mt910 :=
        matchOuter_pending_mt910_backward env now1 allB1 allA1 h0 kv hsurv
      have hkey1 := hkey kv hkv0
      have hpath : (parseMtAt env c kv.2.path).file_path = kv.2.path := rfl
      have hhashne : get_file_hash env
          (parseMtAt env c kv.2.path).file_path ≠ "" := by
        rw [hpath]
        exact get_file_hash_ne_of_lookup env _ c hl
      have hmemA : parseMtAt env c kv.2.path ∈ allA1 := by
        rw [hallA1]
        exact List.mem_append_right _ ((pendingPool_mem_iff env _ _ _).mpr
          ⟨kv, hkv0, c, hl, hc, rfl⟩)
      rcases matchOuter_deleted_or_unmatched env now1 allB1 hBne1 allA1 h0
          _ hmemA hhashne with hdel | hnm
      · exfalso
        have hkvshape : kv = (get_file_hash env
            (parseMtAt env c kv.2.path).file_path, kv.2) := by
          rw [hpath, ← hkey1]
        exact hdel kv.2 (by rw [← hkvshape]; exact hsurv)
      · intro b hb
        exact matchOuter_nonA_blocked env now1 allB1 allA1 h0 _ hnm b hb
    · -- an entry appended for an unmatched newly scanned record
      obtain ⟨c0, hl0, hc0, hparse⟩ := hA u hun
      have hkvpath : kv.2.path = u.file_path := by rw [hkveq]
      have hceq : c = c0 := by
        rw [hkvpath] at hl
        exact Option.some.inj (hl.symm.trans hl0)
      have hmu : parseMtAt env c kv.2.path = u := by
        rw [hkvpath, hceq, hparse]
      rw [hmu]
      intro b hb
      have hu' : u ∈ loop1.2.2.1 := by rw [← hmm1snd.2]; exact hu
      exact matchOuter_nonA_blocked env now1 allB1 allA1 h0 _ hu' b hb
  -- the second-cycle PACS.008 pool is contained in allB1
  have hpoolB2 : ∀ b ∈ pendingPool env h1.pending_pacs008 parsePacsAt,
      b ∈ allB1 := by
    intro b hb
    obtain ⟨kv, hkv, c, hl, hc, rfl⟩ := (pendingPool_mem_iff env _ _ _).mp
      hb
    have hkv2 : kv ∈ mm1.2.pending_pacs008 :=
      copy_unmatched_pending_pacs008_backward env _ now1 kv (hh1 ▸ hkv)
    rw [hmm1snd.1] at hkv2
    rcases foldl_addB_pending_mem env now1 newB _ _ kv hkv2 with
      hsurv | ⟨u, hu, hun, hkveq⟩
    · rw [foldl_addA_preserves_pacs008] at hsurv
      have hkv0 : kv ∈ h0.pending_pacs008 :=
        matchOuter_pending_pacs008_backward env now1 allB1 allA1 h0 kv
          hsurv
      rw [hallB1]
      exact List.mem_append_right _ ((pendingPool_mem_iff env _ _ _).mpr
        ⟨kv, hkv0, c, hl, hc, rfl⟩)
    · obtain ⟨c0, hl0, hc0, hparse⟩ := hB u hun
      have hkvpath : kv.2.path = u.file_path := by rw [hkveq]
      have hceq : c = c0 := by
        rw [hkvpath] at hl
        exact Option.some.inj (hl.symm.trans hl0)
      have hmu : parsePacsAt env c kv.2.path = u := by
        rw [hkvpath, hceq, hparse]
      rw [hmu, hallB1]
      exact List.mem_append_left _ hun
  -- blocked facts transported to the post-cycle state
  have hblocked2 : ∀ a ∈ pendingPool env h1.pending_mt910 parseMtAt,
      ∀ b ∈ pendingPool env h1.pending_pacs008 parsePacsAt,
      is_already_matched env h1 a.file_path b.file_path = true ∨
        is_match a b = false := by
    intro a ha b hb
    rcases hblockedA a ha b (hpoolB2 b hb) with hal | hnm
    · left
      rw [is_already_matched_congr env h1 loop1.1 hmatched]
      exact hal
    · exact Or.inr hnm
  -- evaluate the second matching run
  unfold match_messages
  dsimp only
  rw [List.nil_append, List.nil_append]
  rw [matchOuter_noop_of_blocked env now2 _ _ h1 hblocked2]
  dsimp only
  rw [foldl_add_nil_guard]
  have hfilter : ((pendingPool env h1.pending_pacs008
      parsePacsAt).enum.filter
        (fun jp => jp.1 ∉ ([] : List Nat))).map Prod.snd =
      pendingPool env h1.pending_pacs008 parsePacsAt := by
    rw [List.filter_eq_self.mpr]
    · exact List.enum_map_snd _
    · intro jp hjp
      simp
  rw [hfilter, foldl_add_nil_guard]

/-- C2 amended — Idempotent re-scan, corrected to what the code does: a
second cycle with no newly scanned documents produces zero new matches
and leaves the reconciliation state exactly as the first cycle left it
(provided the first cycle's scanned records came from the unchanged
filesystem, the initial pending keys are the fingerprints of their paths,
and no pending entry reaches expiry at the second cycle's time); the
snapshot the second cycle writes differs from the first one only in its
`last_run` timestamp.  A cycle that scans nothing and has empty pending
pools returns before matching and does not write the snapshot at all. -/
theorem idempotent_rescan (env : Env) (h0 : History) (now1 now2 : Int)
    (newA newB : List SwiftMessage) (vb1 vb2 w1 : Bool)
    (hA : ∀ m ∈ newA, ∃ c, alookup env.fs m.file_path = some c ∧ c ≠ "" ∧
      parseMtAt env c m.file_path = m)
    (hB : ∀ m ∈ newB, ∃ c, alookup env.fs m.file_path = some c ∧ c ≠ "" ∧
      parsePacsAt env c m.file_path = m)
    (hkey : ∀ kv ∈ h0.pending_mt910,
      kv.1 = get_file_hash env kv.2.path)
    (hnoexp : get_expired_pending_files
      (run_matching env h0 now1 newA newB vb1 w1).hist now2 = ([], [])) :
    ((run_matching env (run_matching env h0 now1 newA newB vb1 w1).hist
      now2 [] [] vb2 true).matchRows = [])
    ∧ ((run_matching env (run_matching env h0 now1 newA newB vb1 w1).hist
      now2 [] [] vb2 true).hist =
      (run_matching env h0 now1 newA newB vb1 w1).hist)
    ∧ (∀ s1 s2,
        (run_matching env h0 now1 newA newB vb1 w1).snapshot = some s1 →
        (run_matching env (run_matching env h0 now1 newA newB vb1
          w1).hist now2 [] [] vb2 true).snapshot = some s2 →
        s2 = { s1 with last_run := now2 })
    ∧ ((newA = [] ∧ newB = [] ∧ h0.pending_mt910 = [] ∧
        h0.pending_pacs008 = []) →
        run_matching env h0 now1 newA newB vb1 w1 =
          { stats := none, matchRows := [], unmatched_mt910 := [],
            unmatched_pacs008 := [], hist := h0, saveAttempted := false,
            snapshot := none }) := by
  by_cases hsc1 : (newA.length = 0 ∧ newB.length = 0 ∧
      h0.pending_mt910.length = 0 ∧ h0.pending_pacs008.length = 0)
  · have hr1 : run_matching env h0 now1 newA newB vb1 w1 =
        { stats := none, matchRows := [], unmatched_mt910 := [],
          unmatched_pacs008 := [], hist := h0, saveAttempted := false,
          snapshot := none } := by
      unfold run_matching
      rw [if_pos hsc1]
    rw [hr1]
    have hr2 : run_matching env h0 now2 [] [] vb2 true =
        { stats := none, matchRows := [], unmatched_mt910 := [],
          unmatched_pacs008 := [], hist := h0, saveAttempted := false,
          snapshot := none } := by
      unfold run_matching
      rw [if_pos ⟨rfl, rfl, hsc1.2.2.1, hsc1.2.2.2⟩]
    rw [hr2]
    refine ⟨rfl, rfl, ?_, fun _ => rfl⟩
    intro s1 s2 hs1 _
    simp at hs1
  · have hr1 : run_matching env h0 now1 newA newB vb1 w1 =
        { stats := if vb1 then some (generate_statistics
            (match_messages env now1 h0 newA newB).1.1 newA.length
            newB.length) else none,
          matchRows := (match_messages env now1 h0 newA newB).1.1,
          unmatched_mt910 := (match_messages env now1 h0 newA newB).1.2.1,
          unmatched_pacs008 :=
            (match_messages env now1 h0 newA newB).1.2.2,
          hist := copy_unmatched_files env
            (match_messages env now1 h0 newA newB).2 now1,
          saveAttempted := true,
          snapshot := if w1 then some (save_history
            (copy_unmatched_files env
              (match_messages env now1 h0 newA newB).2 now1) now1)
            else none } := by
      unfold run_matching
      rw [if_neg hsc1]
    rw [hr1] at hnoexp ⊢
    dsimp only at hnoexp ⊢
    by_cases hsc2 : ((copy_unmatched_files env
        (match_messages env now1 h0 newA newB).2
          now1).pending_mt910.length = 0 ∧
      (copy_unmatched_files env (match_messages env now1 h0 newA newB).2
        now1).pending_pacs008.length = 0)
    · have hr2 : run_matching env (copy_unmatched_files env
          (match_messages env now1 h0 newA newB).2 now1) now2 [] [] vb2
          true =
          { stats := none, matchRows := [], unmatched_mt910 := [],
            unmatched_pacs008 := [],
            hist := copy_unmatched_files env
              (match_messages env now1 h0 newA newB).2 now1,
            saveAttempted := false, snapshot := none } := by
        unfold run_matching
        rw [if_pos ⟨rfl, rfl, hsc2.1, hsc2.2⟩]
      rw [hr2]
      refine ⟨rfl, rfl, ?_, ?_⟩
      · intro s1 s2 _ hs2
        simp at hs2
      · rintro ⟨ha, hb', hpa, hpb⟩
        exact absurd ⟨by rw [ha]; rfl, by rw [hb']; rfl,
          by rw [hpa]; rfl, by rw [hpb]; rfl⟩ hsc1
    · have hcopy2 : copy_unmatched_files env
          (copy_unmatched_files env
            (match_messages env now1 h0 newA newB).2 now1) now2 =
          copy_unmatched_files env
            (match_messages env now1 h0 newA newB).2 now1 := by
        unfold copy_unmatched_files
        dsimp only
        rw [if_pos ⟨congrArg Prod.fst hnoexp, congrArg Prod.snd hnoexp⟩]
      have hr2 : run_matching env (copy_unmatched_files env
          (match_messages env now1 h0 newA newB).2 now1) now2 [] [] vb2
          true =
          { stats := if vb2 then some (generate_statistics [] 0 0)
              else none,
            matchRows := [],
            unmatched_mt910 := pendingPool env
              (copy_unmatched_files env
                (match_messages env now1 h0 newA newB).2
                  now1).pending_mt910 parseMtAt,
            unmatched_pacs008 := pendingPool env
              (copy_unmatched_files env
                (match_messages env now1 h0 newA newB).2
                  now1).pending_pacs008 parsePacsAt,
            hist := copy_unmatched_files env
              (match_messages env now1 h0 newA newB).2 now1,
            saveAttempted := true,
            snapshot := some (save_history
              (copy_unmatched_files env
                (match_messages env now1 h0 newA newB).2 now1) now2) } := by
        unfold run_matching
        rw [if_neg (by
          rintro ⟨_, _, hp1, hp2⟩
          exact hsc2 ⟨hp1, hp2⟩)]
        rw [second_cycle_matching_noop env h0 now1 now2 newA newB hA hB
          hkey]
        dsimp only
        rw [hcopy2]
        rfl
      rw [hr2]
      refine ⟨rfl, rfl, ?_, ?_⟩
      · intro s1 s2 hs1 hs2
        rcases hw : w1 with _ | _
        · rw [hw] at hs1
          simp at hs1
        · rw [hw] at hs1
          simp only [if_true] at hs1
          have hs1' := Option.some.inj hs1
          have hs2' := Option.some.inj hs2
          rw [← hs1', ← hs2']
          rfl
      · rintro ⟨ha, hb', hpa, hpb⟩
        exact absurd ⟨by rw [ha]; rfl, by rw [hb']; rfl,
          by rw [hpa]; rfl, by rw [hpb]; rfl⟩ hsc1

/-- Environment for the idempotence scenarios: one document per side. -/
def envC2 : Env :=
  { fs := [("pa", "ca"), ("pb", "cb")],
    parseMtCore := fun _ => blankCore,
    parsePacsCore := fun _ => blankCore }

/-- The newly scanned MT910 record of the idempotence scenarios. -/
def mAC2 : SwiftMessage := msgOfCore blankCore "pa" "ca"

/-- The newly scanned PACS.008 record of the idempotence scenarios. -/
def mBC2 : SwiftMessage := msgOfCore blankCore "pb" "cb"

theorem idempotent_rescan_witness :
    ((run_matching envC2 (run_matching envC2 emptyHistory 0 [mAC2] [mBC2]
      false true).hist 1 [] [] false true).matchRows = [])
    ∧ ((run_matching envC2 (run_matching envC2 emptyHistory 0 [mAC2]
      [mBC2] false true).hist 1 [] [] false true).hist =
      (run_matching envC2 emptyHistory 0 [mAC2] [mBC2] false true).hist)
    ∧ (∀ s1 s2,
        (run_matching envC2 emptyHistory 0 [mAC2] [mBC2] false
          true).snapshot = some s1 →
        (run_matching envC2 (run_matching envC2 emptyHistory 0 [mAC2]
          [mBC2] false true).hist 1 [] [] false true).snapshot = some s2 →
        s2 = { s1 with last_run := 1 })
    ∧ (([mAC2] = ([] : List SwiftMessage) ∧
        [mBC2] = ([] : List SwiftMessage) ∧
        emptyHistory.pending_mt910 = [] ∧
        emptyHistory.pending_pacs008 = []) →
        run_matching envC2 emptyHistory 0 [mAC2] [mBC2] false true =
          { stats := none, matchRows := [], unmatched_mt910 := [],
            unmatched_pacs008 := [], hist := emptyHistory,
            saveAttempted := false, snapshot := none }) :=
  idempotent_rescan envC2 emptyHistory 0 1 [mAC2] [mBC2] false false true
    (by
      intro m hm
      rw [List.mem_singleton] at hm
      subst hm
      exact ⟨"ca", by decide, by decide, rfl⟩)
    (by
      intro m hm
      rw [List.mem_singleton] at hm
      subst hm
      exact ⟨"cb", by decide, by decide, rfl⟩)
    (by
      intro kv hkv
      exact absurd hkv (List.not_mem_nil kv))
    (by decide)

theorem idempotent_rescan_counterexample :
    ((run_matching envC2 (run_matching envC2 emptyHistory 0 [mAC2] []
      false true).hist 10 [] [] false true).hist ≠
      (run_matching envC2 emptyHistory 0 [mAC2] [] false true).hist)
    ∧ ((run_matching envC2 (run_matching envC2 emptyHistory 0 [mAC2] []
      false true).hist 10 [] [] false true).snapshot ≠
      (run_matching envC2 emptyHistory 0 [mAC2] [] false true).snapshot)
    := by
  refine ⟨by decide, by decide⟩
